import Mathlib

/-!
Verification of the semi-weekly article pipeline.

A shallow embedding of the pipeline's core (src/main.py, src/report.py,
src/web_review.py): date normalization, the article/review/LLM-result store,
the dedup upserter, the LLM classification driver, the review state machine,
and the weekly report builder.  Python strings are modelled as Lean `String`
(lists of unicode scalar characters), SQL `NULL`-able columns as `Option`,
and fallible code as `Except String`.  External collaborators (the browser,
the chat-completion endpoint) are abstracted as oracle parameters, exactly
at the boundary the code itself draws (`chat_completion_with_retries`).
-/

namespace SemiWeekly

/-! ## Python string primitives

`str.strip` / `str.split` operate on unicode whitespace; we model the
whitespace characters that occur in this pipeline's data (ASCII whitespace,
NBSP, ideographic space). -/

/-- Whitespace for Python `str.strip()` / `str.split()` (the fragment relevant
to this pipeline: ASCII whitespace, NBSP, CJK ideographic space). -/
def pySpace (c : Char) : Bool :=
  c == ' ' || c == '\t' || c == '\n' || c == '\r' ||
  c == '\x0b' || c == '\x0c' || c == '\xa0' || c == '　'

/-- Drop trailing characters satisfying `p`. -/
def dropTrailing (p : Char → Bool) (cs : List Char) : List Char :=
  (cs.reverse.dropWhile p).reverse

/-- Python `str.strip()` on a character list. -/
def pyStripList (cs : List Char) : List Char :=
  dropTrailing pySpace (cs.dropWhile pySpace)

/-- Python `str.strip()`. -/
def pyStrip (s : String) : String := ⟨pyStripList s.data⟩

/-- Helper for Python `str.split()`: accumulate the current token. -/
def splitWsAux : List Char → List Char → List (List Char)
  | [], acc => if acc.isEmpty then [] else [acc.reverse]
  | c :: rest, acc =>
    if pySpace c then
      if acc.isEmpty then splitWsAux rest [] else acc.reverse :: splitWsAux rest []
    else splitWsAux rest (c :: acc)

/-- Python `str.split()` (split on whitespace runs, dropping empty tokens). -/
def pySplitWs (cs : List Char) : List (List Char) := splitWsAux cs []

/-- `" ".join(tokens)`. -/
def joinSpace : List (List Char) → List Char
  | [] => []
  | [t] => t
  | t :: rest => t ++ ' ' :: joinSpace rest

/-- `_normalize_whitespace` (main.py): replace NBSP by a space, split on
whitespace, re-join with single spaces. -/
def normalize_whitespace (s : String) : String :=
  ⟨joinSpace (pySplitWs (s.data.map fun c => if c == '\xa0' then ' ' else c))⟩

/-- Numeric value of an ASCII digit character. -/
def digitVal (c : Char) : Nat := c.toNat - 48

/-- The ASCII digit character for `n % 10`. -/
def digitChar (n : Nat) : Char := Char.ofNat (48 + n % 10)

/-- `f"{n:02d}"` for the regex-bounded range `n ≤ 99`. -/
def pad2 (n : Nat) : List Char := [digitChar (n / 10), digitChar n]

/-- `f"{n:04d}"` for the regex-bounded range `n ≤ 9999`. -/
def pad4 (n : Nat) : List Char :=
  [digitChar (n / 1000), digitChar (n / 100), digitChar (n / 10), digitChar n]

/-- `f"{y:04d}-{m:02d}-{d:02d}"`. -/
def fmtDate (y m d : Nat) : String :=
  ⟨pad4 y ++ '-' :: (pad2 m ++ '-' :: pad2 d)⟩

/-! ## Date normalization (`normalize_published_date`, main.py)

The two regexes `_DATE_RE` (four digits, a dash-or-slash separator, one or two digits, a separator, one or two digits) and
`_DATE_ZH_RE = (\d{4})年(\d{1,2})月(\d{1,2})日` are embedded as explicit
leftmost-match searches with the greedy backtracking Python's `re.search`
performs (`\d` modelled as the ASCII digits the data contains). -/

/-- Match the trailing one-or-two-digit group greedily at the front of `cs` (end of pattern,
so the greedy day needs no backtracking). -/
def matchDayPart : List Char → Option Nat
  | d1 :: d2 :: _ =>
    if d1.isDigit && d2.isDigit then some (digitVal d1 * 10 + digitVal d2)
    else if d1.isDigit then some (digitVal d1)
    else none
  | [d1] => if d1.isDigit then some (digitVal d1) else none
  | [] => none

/-- Match the month-separator-day tail at the front of `cs`: the greedy two-digit
month is tried first; if the following character is not a separator, the
regex engine backtracks to a one-digit month. -/
def matchMonthDay : List Char → Option (Nat × Nat)
  | m1 :: m2 :: rest =>
    if m1.isDigit then
      if m2.isDigit then
        match rest with
        | s :: rest2 =>
          if s == '-' || s == '/' then
            (matchDayPart rest2).map fun d => (digitVal m1 * 10 + digitVal m2, d)
          else none
        | [] => none
      else if m2 == '-' || m2 == '/' then
        (matchDayPart rest).map fun d => (digitVal m1, d)
      else none
    else none
  | _ => none

/-- Match `_DATE_RE` anchored at the front of `cs`. -/
def matchDateFrom : List Char → Option (Nat × Nat × Nat)
  | c1 :: c2 :: c3 :: c4 :: s1 :: rest =>
    if c1.isDigit && c2.isDigit && c3.isDigit && c4.isDigit &&
        (s1 == '-' || s1 == '/') then
      (matchMonthDay rest).map fun md =>
        (digitVal c1 * 1000 + digitVal c2 * 100 + digitVal c3 * 10 + digitVal c4,
         md.1, md.2)
    else none
  | _ => none

/-- `re.search` with `_DATE_RE`: leftmost position at which the anchored
match succeeds. -/
def searchDate : List Char → Option (Nat × Nat × Nat)
  | [] => none
  | c :: rest =>
    match matchDateFrom (c :: rest) with
    | some r => some r
    | none => searchDate rest

/-- Match `(\d{1,2})日` at the front (greedy, with backtracking on `日`). -/
def matchZhDay : List Char → Option Nat
  | d1 :: d2 :: d3 :: _ =>
    if d1.isDigit && d2.isDigit && d3 == '日' then
      some (digitVal d1 * 10 + digitVal d2)
    else if d1.isDigit && d2 == '日' then some (digitVal d1)
    else none
  | [d1, d2] => if d1.isDigit && d2 == '日' then some (digitVal d1) else none
  | _ => none

/-- Match `(\d{1,2})月(\d{1,2})日` at the front (greedy month with
backtracking on `月`). -/
def matchZhMonthDay : List Char → Option (Nat × Nat)
  | m1 :: m2 :: rest =>
    if m1.isDigit then
      if m2.isDigit then
        match rest with
        | s :: rest2 =>
          if s == '月' then
            (matchZhDay rest2).map fun d => (digitVal m1 * 10 + digitVal m2, d)
          else none
        | [] => none
      else if m2 == '月' then (matchZhDay rest).map fun d => (digitVal m1, d)
      else none
    else none
  | _ => none

/-- Match `_DATE_ZH_RE` anchored at the front of `cs`. -/
def matchZhFrom : List Char → Option (Nat × Nat × Nat)
  | c1 :: c2 :: c3 :: c4 :: s1 :: rest =>
    if c1.isDigit && c2.isDigit && c3.isDigit && c4.isDigit && s1 == '年' then
      (matchZhMonthDay rest).map fun md =>
        (digitVal c1 * 1000 + digitVal c2 * 100 + digitVal c3 * 10 + digitVal c4,
         md.1, md.2)
    else none
  | _ => none

/-- `re.search` with `_DATE_ZH_RE`. -/
def searchZh : List Char → Option (Nat × Nat × Nat)
  | [] => none
  | c :: rest =>
    match matchZhFrom (c :: rest) with
    | some r => some r
    | none => searchZh rest

/-- `normalize_published_date` (main.py): `None`/empty → `None`; strip; if the
text is at least 10 characters long with separators at indices 4 and 7, search
`_DATE_RE` in the first 10 characters; otherwise (or if that fails) search
`_DATE_RE` in the whole text, then `_DATE_ZH_RE`; render as
`f"{y:04d}-{m:02d}-{d:02d}"`. -/
def normalize_published_date (value : Option String) : Option String :=
  match value with
  | none => none
  | some v =>
    if v == "" then none
    else
      let text := pyStripList v.data
      if text.isEmpty then none
      else
        let head10 : Option (Nat × Nat × Nat) :=
          if text.length ≥ 10 &&
              (match text.get? 4 with
               | some c => c == '-' || c == '/'
               | none => false) &&
              (match text.get? 7 with
               | some c => c == '-' || c == '/'
               | none => false) then
            searchDate (text.take 10)
          else none
        match head10 with
        | some (y, m, d) => some (fmtDate y m d)
        | none =>
          match searchDate text with
          | some (y, m, d) => some (fmtDate y m d)
          | none =>
            match searchZh text with
            | some (y, m, d) => some (fmtDate y m d)
            | none => none

/-! Spec-side shape predicates for the three accepted date forms, written
from the specification's words ("accepts `YYYY-MM-DD`, `YYYY/MM/DD`, and a
localized `YYYY年MM月DD日` form"). -/

/-- The input is exactly `YYYY-MM-DD`. -/
def isShapeDash (s : String) : Bool :=
  match s.data with
  | [a, b, c, d, e, f, g, h, i, j] =>
    a.isDigit && b.isDigit && c.isDigit && d.isDigit && e == '-' &&
    f.isDigit && g.isDigit && h == '-' && i.isDigit && j.isDigit
  | _ => false

/-- The input is exactly `YYYY/MM/DD`. -/
def isShapeSlash (s : String) : Bool :=
  match s.data with
  | [a, b, c, d, e, f, g, h, i, j] =>
    a.isDigit && b.isDigit && c.isDigit && d.isDigit && e == '/' &&
    f.isDigit && g.isDigit && h == '/' && i.isDigit && j.isDigit
  | _ => false

/-- The input is exactly `YYYY年MM月DD日`. -/
def isShapeZh (s : String) : Bool :=
  match s.data with
  | [a, b, c, d, e, f, g, h, i, j, k] =>
    a.isDigit && b.isDigit && c.isDigit && d.isDigit && e == '年' &&
    f.isDigit && g.isDigit && h == '月' && i.isDigit && j.isDigit && k == '日'
  | _ => false

/-! ## The Article Store

SQLite rows become Lean structures; `NULL`-able columns are `Option`.
`INTEGER PRIMARY KEY` id assignment is modelled by the `nextArticleId`
counter.  The set of tables that actually exist in the database file is
tracked in `tables`, so that a statement against a table the schema never
created fails the way `sqlite3` does (`no such table: …`). -/

/-- `CATEGORY_OPTIONS` (main.py / report.py). -/
def CATEGORY_OPTIONS : List String :=
  ["eda/ip", "设计", "制造", "设备", "材料", "封装", "IDM", "其他"]

def REVIEW_STATUS_PENDING : String := "pending"

def REVIEW_STATUS_REVIEWED : String := "reviewed"

/-- A row of the `articles` table. -/
structure ArticleRow where
  id : Nat
  source : String
  url : String
  title : String
  dateRaw : Option String
  publishedDate : Option String
  author : Option String
  content : Option String
  contentFetchedAt : Option String
  createdAt : String
  updatedAt : String
  lastSeenAt : String
deriving Repr, DecidableEq

/-- A row of the `llm_results` table. -/
structure LlmResultRow where
  articleId : Nat
  model : String
  baseUrl : String
  category : String
  summaryZh : String
  rawJson : String
  createdAt : String
deriving Repr, DecidableEq

/-- A row of the `reviews` table. -/
structure ReviewRow where
  articleId : Nat
  reviewStatus : String
  userTitle : Option String
  userCategory : Option String
  userSummaryZh : Option String
  userNotes : Option String
  reviewedAt : Option String
  updatedAt : String
deriving Repr, DecidableEq

/-- A row of the `article_links` table (referenced by the tests and by
report.py / web_review.py). -/
structure ArticleLinkRow where
  fromArticleId : Nat
  toArticleId : Nat
  relation : String
  note : Option String
  createdAt : String
deriving Repr, DecidableEq

/-- A row of the `ignored_urls` table (referenced by web_review.py). -/
structure IgnoredUrlRow where
  url : String
  createdAt : String
deriving Repr, DecidableEq

/-- The persisted store. -/
structure DBState where
  tables : List String
  nextArticleId : Nat
  articles : List ArticleRow
  llmResults : List LlmResultRow
  reviews : List ReviewRow
  articleLinks : List ArticleLinkRow
  ignoredUrls : List IgnoredUrlRow
deriving Repr, DecidableEq

/-- A database file before any schema statement has run. -/
def emptyDb : DBState :=
  { tables := [], nextArticleId := 1, articles := [], llmResults := [],
    reviews := [], articleLinks := [], ignoredUrls := [] }

/-- `CREATE TABLE IF NOT EXISTS`. -/
def createTableIfNotExists (tables : List String) (name : String) : List String :=
  if name ∈ tables then tables else tables ++ [name]

/-- `ensure_db_schema` (main.py, lines 565–610): the `executescript` DDL
issues exactly three `CREATE TABLE IF NOT EXISTS` statements — `articles`,
`llm_results`, `reviews` — plus two indexes.  No statement creates
`article_links` or `ignored_urls`. -/
def ensure_db_schema (st : DBState) : DBState :=
  { st with
    tables := createTableIfNotExists (createTableIfNotExists
      (createTableIfNotExists st.tables "articles") "llm_results") "reviews" }

/-- `COALESCE(a, b)`. -/
def sqlCoalesce {α : Type} (a b : Option α) : Option α :=
  match a with
  | some x => some x
  | none => b

/-- A discovered article reference (`NewsItem`, main.py). -/
structure NewsItem where
  title : String
  url : String
  date : Option String := none
deriving Repr, DecidableEq

/-- `INSERT OR IGNORE INTO reviews (article_id, review_status, updated_at)`:
ignored when a review row with that primary key already exists. -/
def insertOrIgnoreReview (st : DBState) (articleId : Nat) (now : String) : DBState :=
  if st.reviews.any fun r => r.articleId == articleId then st
  else
    { st with reviews := st.reviews ++
        [{ articleId := articleId, reviewStatus := REVIEW_STATUS_PENDING,
           userTitle := none, userCategory := none, userSummaryZh := none,
           userNotes := none, reviewedAt := none, updatedAt := now }] }

/-- `upsert_article` (main.py, lines 652–704).  `INSERT … ON CONFLICT(url)
DO UPDATE SET title = excluded.title, date_raw = excluded.date_raw,
published_date = COALESCE(excluded.published_date, articles.published_date),
updated_at = excluded.updated_at, last_seen_at = excluded.last_seen_at`;
then `INSERT OR IGNORE` of the pending review row.  Returns the article id
and whether the reference was new. -/
def upsert_article (st : DBState) (item : NewsItem) (now : String) :
    DBState × Nat × Bool :=
  let existing := st.articles.find? fun a => a.url == item.url
  let published_date := normalize_published_date item.date
  match existing with
  | some a0 =>
    let articles := st.articles.map fun a =>
      if a.url == item.url then
        { a with title := item.title, dateRaw := item.date,
                 publishedDate := sqlCoalesce published_date a.publishedDate,
                 updatedAt := now, lastSeenAt := now }
      else a
    let st1 := insertOrIgnoreReview { st with articles := articles } a0.id now
    (st1, a0.id, false)
  | none =>
    let id := st.nextArticleId
    let row : ArticleRow :=
      { id := id, source := "EET-China", url := item.url, title := item.title,
        dateRaw := item.date, publishedDate := published_date, author := none,
        content := none, contentFetchedAt := none, createdAt := now,
        updatedAt := now, lastSeenAt := now }
    let st1 := insertOrIgnoreReview
      { st with articles := st.articles ++ [row], nextArticleId := id + 1 } id now
    (st1, id, true)

/-- `approve_item` (web_review.py, lines 459–476): `UPDATE reviews SET
review_status = 'reviewed', reviewed_at = COALESCE(reviewed_at, ?),
updated_at = ? WHERE article_id = ?`. -/
def approve_item (st : DBState) (itemId : Nat) (now : String) : DBState :=
  { st with reviews := st.reviews.map fun r =>
      if r.articleId == itemId then
        { r with reviewStatus := REVIEW_STATUS_REVIEWED,
                 reviewedAt := sqlCoalesce r.reviewedAt (some now),
                 updatedAt := now }
      else r }

/-- A statement against a table absent from the schema raises
`sqlite3.OperationalError: no such table: …`. -/
def requireTable (st : DBState) (name : String) : Except String Unit :=
  if name ∈ st.tables then Except.ok () else Except.error ("no such table: " ++ name)

/-- `delete_item` (web_review.py, lines 479–496): look up the article's URL;
if non-empty, `INSERT OR IGNORE INTO ignored_urls`; then `DELETE FROM
articles WHERE id = ?`, with `ON DELETE CASCADE` applying for every
dependent table whose declaration exists.  An error anywhere inside the
`with conn:` block rolls the transaction back (`Except.error`). -/
def delete_item (st : DBState) (itemId : Nat) (now : String) :
    Except String DBState := do
  let _ ← requireTable st "articles"
  let row := st.articles.find? fun a => a.id == itemId
  let st1 ← match row with
    | some a =>
      if a.url != "" then do
        let _ ← requireTable st "ignored_urls"
        pure { st with ignoredUrls :=
          if st.ignoredUrls.any fun i => i.url == a.url then st.ignoredUrls
          else st.ignoredUrls ++ [{ url := a.url, createdAt := now }] }
      else pure st
    | none => pure st
  pure { st1 with
    articles := st1.articles.filter fun a => a.id != itemId,
    reviews := st1.reviews.filter fun r => r.articleId != itemId,
    llmResults := st1.llmResults.filter fun l => l.articleId != itemId,
    articleLinks :=
      if "article_links" ∈ st1.tables then
        st1.articleLinks.filter fun al =>
          al.fromArticleId != itemId && al.toArticleId != itemId
      else st1.articleLinks }

/-! ## The Classification Engine (main.py)

`json.loads` is modelled on the fragment the prompt demands — a flat JSON
object whose keys and values are strings (any other JSON shape is a decode
failure, as the validation that follows would reject it anyway).  The
chat-completion collaborator, wrapped by `chat_completion_with_retries`, is
abstracted as an `LlmExchange`: the outcome (after the bounded retries) of
the primary request and of the repair request. -/

/-- JSON whitespace. -/
def jsonWs (c : Char) : Bool :=
  c == ' ' || c == '\t' || c == '\n' || c == '\r'

/-- Parse the remainder of a JSON string literal (after the opening quote). -/
def parseJsonStringAux : List Char → List Char → Option (String × List Char)
  | [], _ => none
  | '"' :: rest, acc => some (⟨acc.reverse⟩, rest)
  | '\\' :: e :: rest, acc =>
    if e == '"' then parseJsonStringAux rest ('"' :: acc)
    else if e == '\\' then parseJsonStringAux rest ('\\' :: acc)
    else if e == '/' then parseJsonStringAux rest ('/' :: acc)
    else if e == 'n' then parseJsonStringAux rest ('\n' :: acc)
    else if e == 't' then parseJsonStringAux rest ('\t' :: acc)
    else if e == 'r' then parseJsonStringAux rest ('\r' :: acc)
    else none
  | c :: rest, acc => parseJsonStringAux rest (c :: acc)

/-- Parse the members of a flat string-valued object, positioned after `{`
(fuel-bounded by the input length). -/
def parseMembersAux : Nat → List Char → List (String × String) →
    Option (List (String × String) × List Char)
  | 0, _, _ => none
  | fuel + 1, cs, acc =>
    match (cs.dropWhile jsonWs) with
    | '"' :: rest =>
      match parseJsonStringAux rest [] with
      | none => none
      | some (key, rest2) =>
        match rest2.dropWhile jsonWs with
        | ':' :: rest3 =>
          match rest3.dropWhile jsonWs with
          | '"' :: rest4 =>
            match parseJsonStringAux rest4 [] with
            | none => none
            | some (val, rest5) =>
              match rest5.dropWhile jsonWs with
              | ',' :: rest6 => parseMembersAux fuel rest6 (acc ++ [(key, val)])
              | '}' :: rest6 => some (acc ++ [(key, val)], rest6)
              | _ => none
          | _ => none
        | _ => none
    | _ => none

/-- `json.loads` on the flat string-object fragment: the whole input must be
one object with string keys and string values. -/
def parseFlatJsonObject (cs : List Char) : Option (List (String × String)) :=
  match cs.dropWhile jsonWs with
  | '{' :: rest =>
    match rest.dropWhile jsonWs with
    | '}' :: rest2 => if (rest2.dropWhile jsonWs).isEmpty then some [] else none
    | _ =>
      match parseMembersAux (rest.length + 1) rest [] with
      | none => none
      | some (obj, rest2) =>
        if (rest2.dropWhile jsonWs).isEmpty then some obj else none
  | _ => none

/-- Python `str.strip(ch)` for a single character. -/
def stripChar (ch : Char) (cs : List Char) : List Char :=
  dropTrailing (· == ch) (cs.dropWhile (· == ch))

/-- Python `str.replace(pat, rep, 1)`: replace the first occurrence. -/
def replaceFirst (pat rep : List Char) : List Char → List Char
  | [] => []
  | c :: rest =>
    if pat.isPrefixOf (c :: rest) then rep ++ (c :: rest).drop pat.length
    else c :: replaceFirst pat rep rest

/-- `str.find(ch)` (first index, or none for `-1`). -/
def findChar (ch : Char) (cs : List Char) : Option Nat :=
  cs.findIdx? (· == ch)

/-- `str.rfind(ch)` (last index, or none for `-1`). -/
def rfindChar (ch : Char) (cs : List Char) : Option Nat :=
  (cs.reverse.findIdx? (· == ch)).map fun i => cs.length - 1 - i

/-- `parse_llm_json_object` (main.py, lines 320–333): strip; drop a Markdown
code fence if present (strip backticks, remove one `json\n`, strip again);
take the substring from the first `{` to the last `}`; `json.loads` it. -/
def parse_llm_json_object (text : String) : Except String (List (String × String)) :=
  let stripped := pyStripList text.data
  let stripped :=
    if "```".data.isPrefixOf stripped then
      pyStripList (replaceFirst "json\n".data [] (stripChar '`' stripped))
    else stripped
  match findChar '{' stripped, rfindChar '}' stripped with
  | some first, some last =>
    if last ≤ first then Except.error "No JSON object found"
    else
      let candidate := (stripped.drop first).take (last - first + 1)
      match parseFlatJsonObject candidate with
      | some obj => Except.ok obj
      | none => Except.error "json decode error"
  | _, _ => Except.error "No JSON object found"

/-- `dict.get(key, default)`; with duplicate keys, `json.loads` keeps the
last occurrence. -/
def dictGetD (obj : List (String × String)) (key : String) (dflt : String) : String :=
  match obj.reverse.find? fun kv => kv.1 == key with
  | some kv => kv.2
  | none => dflt

/-- The fixed CJK sentence-terminator set (`terminators = "。！？"`). -/
def terminators : List Char := ['。', '！', '？']

/-- The prefix of `cs` ending at the third terminator, counting from
`count` already seen; `none` when fewer than three terminators occur. -/
def takeToThird : List Char → Nat → Option (List Char)
  | [], _ => none
  | c :: rest, count =>
    if c ∈ terminators then
      if count + 1 ≥ 3 then some [c]
      else (takeToThird rest (count + 1)).map (c :: ·)
    else (takeToThird rest count).map (c :: ·)

/-- The truncation loop of `normalize_and_validate_llm_result`: on reaching
the third terminator the summary becomes `summary[: idx + 1].strip()`;
otherwise it is unchanged. -/
def truncateSummary (s : String) : String :=
  match takeToThird s.data 0 with
  | some p => ⟨pyStripList p⟩
  | none => s

/-- `normalize_and_validate_llm_result` (main.py, lines 336–356). -/
def normalize_and_validate_llm_result (obj : List (String × String)) :
    Except String (String × String) :=
  let category := pyStrip (dictGetD obj "category" "")
  let summary0 := pyStrip (dictGetD obj "summary_zh" "")
  if category ∉ CATEGORY_OPTIONS then
    Except.error ("Invalid category: " ++ category)
  else
    let summary := normalize_whitespace summary0
    if summary == "" then Except.error "Empty summary_zh"
    else Except.ok (category, truncateSummary summary)

/-- The chat-completion collaborator's behaviour for one article: the
outcome of `chat_completion_with_retries` on the classification request and
on the repair request (`Except.error` = the call still failed after the
bounded retries, so `RuntimeError` was raised). -/
structure LlmExchange where
  primary : Except String String
  repair : Except String String
deriving Repr

/-- `classify_and_summarize` (main.py, lines 389–441): call the model, parse
and validate; on any parse/validation failure issue exactly one repair
request through the same retry logic, then re-parse and re-validate.  A
failure of either call, or of the second parse/validation, raises. -/
def classify_and_summarize (ex : LlmExchange) : Except String (String × String) :=
  match ex.primary with
  | Except.error e => Except.error e
  | Except.ok raw =>
    match (parse_llm_json_object raw).bind normalize_and_validate_llm_result with
    | Except.ok r => Except.ok r
    | Except.error _ =>
      match ex.repair with
      | Except.error e => Except.error e
      | Except.ok repaired =>
        (parse_llm_json_object repaired).bind normalize_and_validate_llm_result

/-- Strict lexicographic order on character lists (SQLite's text
comparison, byte order coinciding with scalar-value order). -/
def strLtList : List Char → List Char → Bool
  | [], [] => false
  | [], _ :: _ => true
  | _ :: _, [] => false
  | a :: as, b :: bs =>
    if a.val < b.val then true
    else if b.val < a.val then false
    else strLtList as bs

/-- SQLite `a < b` on text. -/
def sqlLt (a b : String) : Bool := strLtList a.data b.data

/-- SQLite `a <= b` on text. -/
def sqlLe (a b : String) : Bool := !sqlLt b a

/-- `ORDER BY COALESCE(published_date, '') DESC, id DESC`. -/
def llmOrder (a b : ArticleRow) : Prop :=
  sqlLt (b.publishedDate.getD "") (a.publishedDate.getD "") = true ∨
    (b.publishedDate.getD "" = a.publishedDate.getD "" ∧ b.id ≤ a.id)

instance : DecidableRel llmOrder := fun a b => by
  unfold llmOrder; exact inferInstance

/-- The candidate query of `cmd_llm`: articles with no `llm_results` row and
non-NULL, non-empty content, most recent first, limited. -/
def selectLlmRows (st : DBState) (limit : Nat) : List ArticleRow :=
  ((st.articles.filter fun a =>
      (st.llmResults.find? fun l => l.articleId == a.id).isNone &&
      a.content.isSome && a.content != some "").insertionSort llmOrder).take limit

/-- Minimal `json.dumps` string escaping for the stored `raw_json`. -/
def jsonEscape (s : String) : String :=
  ⟨s.data.flatMap fun c =>
    if c == '"' then ['\\', '"']
    else if c == '\\' then ['\\', '\\']
    else if c == '\n' then ['\\', 'n']
    else if c == '\t' then ['\\', 't']
    else if c == '\r' then ['\\', 'r']
    else [c]⟩

/-- `json.dumps({"category": category, "summary_zh": summary}, ensure_ascii=False)`. -/
def jsonDumpsResult (category summary : String) : String :=
  "\x7b\"category\": \"" ++ jsonEscape category ++ "\", \"summary_zh\": \"" ++
    jsonEscape summary ++ "\"\x7d"

/-- The per-row body of `cmd_llm`'s loop: classify, then `INSERT … ON
CONFLICT(article_id) DO UPDATE` into `llm_results` and bump the article's
`updated_at`.  There is no exception handling around
`classify_and_summarize`: an error propagates, the enclosing `with conn:`
transaction rolls back, and the batch run aborts. -/
def cmdLlmLoop (oracle : ArticleRow → LlmExchange) (model baseUrl now : String) :
    List ArticleRow → DBState → Nat → Except String (DBState × Nat)
  | [], st, processed => Except.ok (st, processed)
  | a :: rest, st, processed =>
    match classify_and_summarize (oracle a) with
    | Except.error e => Except.error e
    | Except.ok (category, summary) =>
      let raw_json := jsonDumpsResult category summary
      let newRow : LlmResultRow :=
        { articleId := a.id, model := model, baseUrl := baseUrl,
          category := category, summaryZh := summary, rawJson := raw_json,
          createdAt := now }
      let llmResults :=
        if st.llmResults.any fun l => l.articleId == a.id then
          st.llmResults.map fun l => if l.articleId == a.id then newRow else l
        else st.llmResults ++ [newRow]
      let articles := st.articles.map fun b =>
        if b.id == a.id then { b with updatedAt := now } else b
      let st1 := { st with llmResults := llmResults, articles := articles }
      cmdLlmLoop oracle model baseUrl now rest st1 (processed + 1)

/-- `cmd_llm` (main.py, lines 839–933): select the candidates, then run the
classification loop inside one `with conn:` transaction.  On success returns
the updated store and the processed count; on any per-item failure the
exception aborts the batch and the transaction is rolled back. -/
def cmd_llm (st : DBState) (oracle : ArticleRow → LlmExchange)
    (limit : Nat) (model baseUrl now : String) : Except String (DBState × Nat) :=
  cmdLlmLoop oracle model baseUrl now (selectLlmRows st limit) st 0

/-! ## Dates and ISO weeks (report.py)

`datetime.date.fromisoformat` is modelled on the `YYYY-MM-DD` form — the
only shape this pipeline stores (`normalize_published_date` always emits
it) — including calendar validation; `date.isocalendar().week` is the
ISO-8601 week number. -/

/-- A Python `datetime.date`. -/
structure IsoDate where
  year : Nat
  month : Nat
  day : Nat
deriving Repr, DecidableEq

/-- Python `date` comparison (`a <= b`), lexicographic on (year, month, day). -/
def dateLe (a b : IsoDate) : Bool :=
  a.year < b.year ||
    (a.year == b.year &&
      (a.month < b.month || (a.month == b.month && a.day ≤ b.day)))

/-- Gregorian leap year. -/
def isLeap (y : Nat) : Bool := y % 4 == 0 && (y % 100 != 0 || y % 400 == 0)

/-- Length of a month. -/
def daysInMonth (y m : Nat) : Nat :=
  if m == 2 then (if isLeap y then 29 else 28)
  else if m == 4 || m == 6 || m == 9 || m == 11 then 30
  else 31

/-- `date.fromisoformat` on the `YYYY-MM-DD` fragment (any other input
raises `ValueError`, i.e. `none`). -/
def dateFromIso (s : String) : Option IsoDate :=
  match s.data with
  | [a, b, c, d, e, f, g, h, i, j] =>
    if a.isDigit && b.isDigit && c.isDigit && d.isDigit && e == '-' &&
        f.isDigit && g.isDigit && h == '-' && i.isDigit && j.isDigit then
      let y := digitVal a * 1000 + digitVal b * 100 + digitVal c * 10 + digitVal d
      let m := digitVal f * 10 + digitVal g
      let dd := digitVal i * 10 + digitVal j
      if 1 ≤ y && 1 ≤ m && m ≤ 12 && 1 ≤ dd && dd ≤ daysInMonth y m then
        some ⟨y, m, dd⟩
      else none
    else none
  | _ => none

/-- `_parse_iso_date` (report.py, lines 32–46): non-string/empty → `none`;
strip; truncate to 10 characters when positions 4 and 7 are dashes; parse. -/
def parse_iso_date (v : Option String) : Option IsoDate :=
  match v with
  | none => none
  | some s =>
    let text := pyStripList s.data
    if text.isEmpty then none
    else
      let text :=
        if text.length ≥ 10 && text.get? 4 == some '-' && text.get? 7 == some '-'
        then text.take 10 else text
      dateFromIso ⟨text⟩

/-- Days of the year before month `m` of year `y`. -/
def monthDaysBefore (y m : Nat) : Nat :=
  (List.range (m - 1)).foldl (fun acc i => acc + daysInMonth y (i + 1)) 0

/-- Ordinal day of the year (1-based). -/
def dayOfYear (dt : IsoDate) : Nat := monthDaysBefore dt.year dt.month + dt.day

/-- Sakamoto's day-of-week formula (0 = Sunday). -/
def sakamoto (dt : IsoDate) : Nat :=
  let y := if dt.month < 3 then dt.year - 1 else dt.year
  let t := [0, 3, 2, 5, 0, 3, 5, 1, 4, 6, 2, 4]
  (y + y / 4 - y / 100 + y / 400 + t.getD (dt.month - 1) 0 + dt.day) % 7

/-- ISO weekday (1 = Monday … 7 = Sunday). -/
def isoWeekday (dt : IsoDate) : Nat := (sakamoto dt + 6) % 7 + 1

/-- Number of ISO weeks of year `y` (53 iff Jan 1 is a Thursday, or a leap
year's Jan 1 is a Wednesday). -/
def isoWeeksInYear (y : Nat) : Nat :=
  let jan1 := isoWeekday ⟨y, 1, 1⟩
  if jan1 == 4 || (isLeap y && jan1 == 3) then 53 else 52

/-- `date.isocalendar().week`. -/
def isoWeek (dt : IsoDate) : Nat :=
  let w := (dayOfYear dt + 10 - isoWeekday dt) / 7
  if w < 1 then isoWeeksInYear (dt.year - 1)
  else if isoWeeksInYear dt.year < w then 1
  else w

/-! ## The Weekly Report Builder (report.py) -/

/-- An input record of the report builder (a JSONL object or a
`read_db_records` row); absent or non-string fields are `none`. -/
structure ReportInput where
  article_id : Option Int := none
  date : Option String := none
  title : Option String := none
  category : Option String := none
  summary_zh : Option String := none
  url : Option String := none
deriving Repr, DecidableEq

/-- A normalized report record. -/
structure NormRecord where
  article_id : Option Int
  category : String
  week : Nat
  date : IsoDate
  summary : String
  title : String
  url : String
deriving Repr, DecidableEq

/-- `_normalize_report_record` (report.py, lines 158–194): drop the record
unless its date parses into the target year and its summary is non-empty;
coerce an unrecognized category to `其他`; attach the ISO week. -/
def normalize_report_record (obj : ReportInput) (year : Nat) :
    Option NormRecord :=
  match parse_iso_date obj.date with
  | none => none
  | some d =>
    if d.year != year then none
    else
      match obj.summary_zh with
      | none => none
      | some sraw =>
        if pyStrip sraw == "" then none
        else
          let summary := normalize_whitespace sraw
          let url := match obj.url with | some u => pyStrip u | none => ""
          let category0 := match obj.category with | some c => pyStrip c | none => ""
          let category := if category0 ∈ CATEGORY_OPTIONS then category0 else "其他"
          let title := match obj.title with | some t => normalize_whitespace t | none => ""
          some { article_id := obj.article_id, category := category,
                 week := isoWeek d, date := d, summary := summary,
                 title := title, url := url }

/-- `grouped: dict[str, dict[int, list[…]]]` with insertion order. -/
abbrev Grouped := List (String × List (Nat × List NormRecord))

/-- `grouped[cat][week].append(r)` on the insertion-ordered dict model. -/
def addToWeeks (ws : List (Nat × List NormRecord)) (week : Nat) (r : NormRecord) :
    List (Nat × List NormRecord) :=
  match ws with
  | [] => [(week, [r])]
  | (w, items) :: rest =>
    if w == week then (w, items ++ [r]) :: rest
    else (w, items) :: addToWeeks rest week r

/-- `grouped[cat][week].append(r)`, outer dict level. -/
def addToGrouped (g : Grouped) (cat : String) (week : Nat) (r : NormRecord) :
    Grouped :=
  match g with
  | [] => [(cat, [(week, [r])])]
  | (c, weeks) :: rest =>
    if c == cat then (c, addToWeeks weeks week r) :: rest
    else (c, weeks) :: addToGrouped rest cat week r

/-- `build_weekly_report_index` (report.py, lines 197–212). -/
def build_weekly_report_index (records : List ReportInput) (year : Nat) :
    Grouped × Nat :=
  records.foldl
    (fun acc r =>
      match normalize_report_record r year with
      | none => acc
      | some n => (addToGrouped acc.1 n.category n.week n, acc.2 + 1))
    ([], 0)

/-- Items within a week render `sorted(…, key=date, reverse=True)` (stable). -/
def dateDescOrder (a b : NormRecord) : Prop := dateLe b.date a.date = true

instance : DecidableRel dateDescOrder := fun a b => by
  unfold dateDescOrder; exact inferInstance

/-- Week keys render `sorted(weeks.keys(), reverse=True)`. -/
def weekDescOrder (a b : Nat) : Prop := b ≤ a

instance : DecidableRel weekDescOrder := fun a b => by
  unfold weekDescOrder; exact inferInstance

/-- `render_weekly_report_html` (report.py, lines 276–462), abstracted to
the content it emits: the categories in `CATEGORY_OPTIONS` order (skipping
absent ones), each with its weeks in descending numeric order, each week
with its items date-descending.  The HTML markup around this sequence is
presentation and is not modelled. -/
def render_weekly_report_html (grouped : Grouped) :
    List (String × List (Nat × List NormRecord)) :=
  CATEGORY_OPTIONS.filterMap fun category =>
    match grouped.find? fun e => e.1 == category with
    | none => none
    | some entry =>
      if entry.2.isEmpty then none
      else
        let weekOrder := (entry.2.map Prod.fst).insertionSort weekDescOrder
        some (category, weekOrder.map fun w =>
          (w, ((entry.2.find? fun e => e.1 == w).map Prod.snd |>.getD
            []).insertionSort dateDescOrder))

/-- `read_db_records` (report.py, lines 117–155): reviewed articles with a
non-NULL, non-empty published date and a non-NULL, non-empty
`COALESCE(user_summary_zh, llm summary)`; category is
`COALESCE(user_category, llm category, '其他')`; the title is the stored
article title. -/
def read_db_records (db : DBState) : List ReportInput :=
  db.reviews.filterMap fun r =>
    match db.articles.find? fun a => a.id == r.articleId with
    | none => none
    | some a =>
      let l := db.llmResults.find? fun x => x.articleId == a.id
      let summary := sqlCoalesce r.userSummaryZh (l.map (·.summaryZh))
      if r.reviewStatus == REVIEW_STATUS_REVIEWED && a.publishedDate.isSome &&
          a.publishedDate != some "" && summary.isSome && summary != some "" then
        some { article_id := some (Int.ofNat a.id), date := a.publishedDate,
               title := some a.title,
               category := some ((sqlCoalesce r.userCategory
                 (l.map (·.category))).getD "其他"),
               summary_zh := summary, url := some a.url }
      else none

/-- `_year_bounds` (web_review.py) and the bounds of `build_related_map`:
`f"{year:04d}-01-01"` to `f"{year+1:04d}-01-01"`. -/
def year_bounds (year : Nat) : String × String :=
  (⟨pad4 year ++ "-01-01".data⟩, ⟨pad4 (year + 1) ++ "-01-01".data⟩)

/-- One attached related article in `build_related_map`'s output. -/
structure RelatedEntry where
  article_id : Nat
  url : String
  date : Option String
  week : Option Nat
  summary : String
  title : String
deriving Repr, DecidableEq

/-- `ORDER BY a_to.published_date DESC, a_to.id DESC` over the joined rows. -/
def relOrder (x y : ArticleLinkRow × ArticleRow) : Prop := llmOrder x.2 y.2

instance : DecidableRel relOrder := fun a b => by
  unfold relOrder; exact inferInstance

/-- `build_related_map` (report.py, lines 215–273), with the dict-of-lists
result flattened to ordered `(from_id, entry)` pairs: links whose source
article is dated inside the target year, each carrying the target article's
`COALESCE(user_summary_zh, llm summary)` (whitespace-normalized, else `""`),
its stored title (whitespace-normalized), and its ISO week; rows where both
the summary and the title normalize to empty are skipped. -/
def build_related_map (db : DBState) (year : Nat) : List (Nat × RelatedEntry) :=
  let bounds := year_bounds year
  let rows := db.articleLinks.filterMap fun al =>
    match db.articles.find? fun a => a.id == al.fromArticleId,
          db.articles.find? fun a => a.id == al.toArticleId with
    | some aFrom, some aTo =>
      match aFrom.publishedDate with
      | none => none
      | some pd =>
        if sqlLe bounds.1 pd && sqlLt pd bounds.2 then some (al, aTo) else none
    | _, _ => none
  (rows.insertionSort relOrder).filterMap fun x =>
    let aTo := x.2
    let r := db.reviews.find? fun q => q.articleId == aTo.id
    let l := db.llmResults.find? fun q => q.articleId == aTo.id
    let summaryRaw := sqlCoalesce (r.bind (·.userSummaryZh)) (l.map (·.summaryZh))
    let summary := match summaryRaw with
      | some s => normalize_whitespace s
      | none => ""
    let title := normalize_whitespace aTo.title
    if summary == "" && title == "" then none
    else
      let parsed := parse_iso_date aTo.publishedDate
      some (x.1.fromArticleId,
        { article_id := aTo.id, url := aTo.url, date := aTo.publishedDate,
          week := parsed.map isoWeek, summary := summary, title := title })

/-! ## The review page listing (web_review.py) -/

/-- Python `x or y` on a `NULL`-able string: `None` and `""` are falsy. -/
def pyOrStr (a : Option String) (b : String) : String :=
  match a with
  | some s => if s == "" then b else s
  | none => b

/-- One item of the review-page listing. -/
structure ReviewItem where
  id : Nat
  date : String
  week : Nat
  url : String
  review_status : String
  final_title : String
  final_category : String
  final_summary : String
  user_title : Option String
  user_category : Option String
  user_summary_zh : Option String
  user_notes : Option String
  llm_category : Option String
  llm_summary : Option String
deriving Repr, DecidableEq

/-- `ORDER BY a.published_date DESC, a.id DESC` over the joined rows. -/
def fetchOrder (x y : ArticleRow × ReviewRow) : Prop := llmOrder x.1 y.1

instance : DecidableRel fetchOrder := fun a b => by
  unfold fetchOrder; exact inferInstance

/-- `_fetch_items` (web_review.py, lines 47–101): reviews joined to their
articles, restricted to the target year, most recent first; the effective
fields are resolved with Python `or` — `user_title or title`,
`user_category or llm_category or '其他'`, `user_summary_zh or llm_summary
or ''`.  `date.fromisoformat` on a malformed stored date raises, failing
the whole request. -/
def fetchItemRow (db : DBState) (x : ArticleRow × ReviewRow) :
    Except String ReviewItem :=
  let a := x.1
  let r := x.2
  let published_date := a.publishedDate.getD ""
  match dateFromIso published_date with
  | none => Except.error ("Invalid isoformat string: " ++ published_date)
  | some d =>
    let l := db.llmResults.find? fun q => q.articleId == a.id
    Except.ok
      { id := a.id, date := published_date, week := isoWeek d, url := a.url,
        review_status := r.reviewStatus,
        final_title := pyOrStr r.userTitle a.title,
        final_category := pyOrStr r.userCategory
          (pyOrStr (l.map (·.category)) "其他"),
        final_summary := pyOrStr r.userSummaryZh
          (pyOrStr (l.map (·.summaryZh)) ""),
        user_title := r.userTitle, user_category := r.userCategory,
        user_summary_zh := r.userSummaryZh, user_notes := r.userNotes,
        llm_category := l.map (·.category), llm_summary := l.map (·.summaryZh) }

/-- The `for row in rows:` loop of `_fetch_items`, accumulating the item
dicts; an exception on any row fails the whole request. -/
def fetchItemsLoop (db : DBState) :
    List (ArticleRow × ReviewRow) → Except String (List ReviewItem)
  | [] => Except.ok []
  | x :: rest =>
    match fetchItemRow db x with
    | Except.error e => Except.error e
    | Except.ok it => (fetchItemsLoop db rest).map (it :: ·)

/-- The rows of `_fetch_items`' query: reviews joined to their articles,
restricted to the target year. -/
def fetchItemRows (db : DBState) (year : Nat) : List (ArticleRow × ReviewRow) :=
  let bounds := year_bounds year
  db.reviews.filterMap fun r =>
    match db.articles.find? fun a => a.id == r.articleId with
    | none => none
    | some a =>
      match a.publishedDate with
      | none => none
      | some pd =>
        if sqlLe bounds.1 pd && sqlLt pd bounds.2 then some (a, r) else none

def fetch_items (db : DBState) (year : Nat) : Except String (List ReviewItem) :=
  fetchItemsLoop db ((fetchItemRows db year).insertionSort fetchOrder)

/-! ## Helper lemmas -/

theorem sqlCoalesce_some_right (a : Option String) (t : String) :
    sqlCoalesce a (some t) = some (a.getD t) := by
  cases a <;> rfl

/-! ## C9: Approve is idempotent on `reviewed_at` -/

/-- C9: For every review, Approve sets the status to `reviewed` and sets
the reviewed-at timestamp only if it was previously unset: the review row
for the approved article ends with status `reviewed` and
`reviewed_at = COALESCE(prior reviewed_at, now)`; and a second Approve
changes nothing except `updated_at` — in particular `reviewed_at` is
exactly as the first call left it. -/
theorem approve_item_sets_reviewed_and_is_idempotent
    (st : DBState) (itemId : Nat) (t1 t2 : String) :
    (∀ r ∈ st.reviews, r.articleId = itemId →
       ({ r with
           reviewStatus := REVIEW_STATUS_REVIEWED
           reviewedAt := some (r.reviewedAt.getD t1)
           updatedAt := t1 } : ReviewRow) ∈
         (approve_item st itemId t1).reviews) ∧
    (approve_item (approve_item st itemId t1) itemId t2).reviews =
      (approve_item st itemId t1).reviews.map
        (fun r => if r.articleId == itemId then { r with updatedAt := t2 } else r) := by
  constructor
  · intro r hr hid
    have : (fun r : ReviewRow =>
        if r.articleId == itemId then
          { r with
            reviewStatus := REVIEW_STATUS_REVIEWED
            reviewedAt := sqlCoalesce r.reviewedAt (some t1)
            updatedAt := t1 }
        else r) r =
        { r with
          reviewStatus := REVIEW_STATUS_REVIEWED
          reviewedAt := some (r.reviewedAt.getD t1)
          updatedAt := t1 } := by
      simp [hid, sqlCoalesce_some_right]
    exact this ▸ List.mem_map_of_mem _ hr
  · show ((st.reviews.map _).map _) = (st.reviews.map _).map _
    rw [List.map_map, List.map_map]
    apply List.map_congr_left
    intro r _
    by_cases h : (r.articleId == itemId) = true
    · simp [Function.comp, h, sqlCoalesce]
      cases r.reviewedAt <;> simp
    · simp [Function.comp, h]

/-- A store with one pending-review article, used to instantiate the
hypothesis-bearing theorems at concrete inputs. -/
def exArticle : ArticleRow :=
  { id := 1, source := "EET-China", url := "https://example.com/a",
    title := "原标题", dateRaw := some "2026-01-02",
    publishedDate := some "2026-01-02", author := none,
    content := some "正文", contentFetchedAt := some "2026-01-02T00:00:00+00:00",
    createdAt := "2026-01-02T00:00:00+00:00",
    updatedAt := "2026-01-02T00:00:00+00:00",
    lastSeenAt := "2026-01-02T00:00:00+00:00" }

def exReview : ReviewRow :=
  { articleId := 1, reviewStatus := REVIEW_STATUS_PENDING, userTitle := none,
    userCategory := none, userSummaryZh := none, userNotes := none,
    reviewedAt := none, updatedAt := "2026-01-02T00:00:00+00:00" }

def exSt : DBState :=
  { ensure_db_schema emptyDb with
    nextArticleId := 2
    articles := [exArticle]
    reviews := [exReview] }

/-- Witness for C9 at a concrete store. -/
theorem approve_item_sets_reviewed_and_is_idempotent_w :
    ({ exReview with
        reviewStatus := REVIEW_STATUS_REVIEWED
        reviewedAt := some (exReview.reviewedAt.getD "T1")
        updatedAt := "T1" } : ReviewRow) ∈ (approve_item exSt 1 "T1").reviews ∧
    (approve_item (approve_item exSt 1 "T1") 1 "T2").reviews =
      (approve_item exSt 1 "T1").reviews.map
        (fun r => if r.articleId == 1 then { r with updatedAt := "T2" } else r) := by
  have h := approve_item_sets_reviewed_and_is_idempotent exSt 1 "T1" "T2"
  exact ⟨h.1 exReview (by decide) rfl, h.2⟩

/-! ## C6: Upsert on an existing URL -/

theorem insertOrIgnoreReview_articles (st : DBState) (i : Nat) (now : String) :
    (insertOrIgnoreReview st i now).articles = st.articles := by
  unfold insertOrIgnoreReview; split <;> rfl

/-- C6: For every upsert of a reference whose URL already exists, the upsert
reports it as not new, and only title, raw date, normalized date and the
updated/last-seen timestamps may change: id, url, source, author, body
content, content-fetched and created timestamps keep their prior values.
The fresh normalized date is applied only when non-empty, so a previously
set normalized date is never regressed to empty; articles with other URLs
are untouched. -/
theorem upsert_existing_frame
    (st : DBState) (item : NewsItem) (now : String) (a : ArticleRow)
    (ha : st.articles.find? (fun x => x.url == item.url) = some a) :
    (upsert_article st item now).2.2 = false ∧
    (∀ b ∈ st.articles, (b.url == item.url) = false →
      b ∈ (upsert_article st item now).1.articles) ∧
    ∃ a' ∈ (upsert_article st item now).1.articles,
      a'.id = a.id ∧ a'.url = a.url ∧ a'.source = a.source ∧
      a'.author = a.author ∧ a'.content = a.content ∧
      a'.contentFetchedAt = a.contentFetchedAt ∧ a'.createdAt = a.createdAt ∧
      a'.title = item.title ∧ a'.dateRaw = item.date ∧
      a'.updatedAt = now ∧ a'.lastSeenAt = now ∧
      (a.publishedDate.isSome = true → a'.publishedDate.isSome = true) ∧
      (∀ x, a'.publishedDate = some x →
        normalize_published_date item.date = some x ∨ a.publishedDate = some x) ∧
      (normalize_published_date item.date = none →
        a'.publishedDate = a.publishedDate) := by
  have hmem := List.mem_of_find?_eq_some ha
  have hbeq : (a.url == item.url) = true :=
    @List.find?_some _ (fun x : ArticleRow => x.url == item.url) a st.articles ha
  unfold upsert_article
  rw [ha]
  refine ⟨rfl, ?_, ?_⟩
  · intro b hb hne
    rw [insertOrIgnoreReview_articles]
    exact List.mem_map.mpr ⟨b, hb, by simp [hne]⟩
  · rw [insertOrIgnoreReview_articles]
    refine ⟨_, List.mem_map_of_mem _ hmem, ?_⟩
    rw [if_pos hbeq]
    refine ⟨rfl, rfl, rfl, rfl, rfl, rfl, rfl, rfl, rfl, rfl, rfl, ?_, ?_, ?_⟩
    · intro h
      cases hn : normalize_published_date item.date <;> simp [sqlCoalesce, hn, h]
    · intro x hx
      cases hn : normalize_published_date item.date <;>
        rw [hn] at hx <;> simp [sqlCoalesce] at hx <;> simp [hx, hn]
    · intro hn
      simp only [hn, sqlCoalesce]

/-- A re-discovery of the already-stored example URL. -/
def exItem : NewsItem :=
  { title := "新标题", url := "https://example.com/a", date := some "2026/1/3" }

/-- Witness for C6 at a concrete store. -/
theorem upsert_existing_frame_w :
    (upsert_article exSt exItem "T3").2.2 = false ∧
    (∀ b ∈ exSt.articles, (b.url == exItem.url) = false →
      b ∈ (upsert_article exSt exItem "T3").1.articles) ∧
    ∃ a' ∈ (upsert_article exSt exItem "T3").1.articles,
      a'.id = exArticle.id ∧ a'.url = exArticle.url ∧
      a'.source = exArticle.source ∧ a'.author = exArticle.author ∧
      a'.content = exArticle.content ∧
      a'.contentFetchedAt = exArticle.contentFetchedAt ∧
      a'.createdAt = exArticle.createdAt ∧
      a'.title = exItem.title ∧ a'.dateRaw = exItem.date ∧
      a'.updatedAt = "T3" ∧ a'.lastSeenAt = "T3" ∧
      (exArticle.publishedDate.isSome = true → a'.publishedDate.isSome = true) ∧
      (∀ x, a'.publishedDate = some x →
        normalize_published_date exItem.date = some x ∨
          exArticle.publishedDate = some x) ∧
      (normalize_published_date exItem.date = none →
        a'.publishedDate = exArticle.publishedDate) :=
  upsert_existing_frame exSt exItem "T3" exArticle (by decide)

/-! ## C10: Upsert on an existing URL leaves the review row unchanged -/

/-- C10: For every upsert of a reference whose URL already exists and whose
article has its review row, the `reviews` table is left exactly as it was:
the article-update path never touches `reviews`, and the
`INSERT OR IGNORE` of the pending review row is ignored because the primary
key already exists.  Re-discovery therefore never clobbers review work. -/
theorem upsert_existing_preserves_reviews
    (st : DBState) (item : NewsItem) (now : String) (a : ArticleRow)
    (ha : st.articles.find? (fun x => x.url == item.url) = some a)
    (hr : (st.reviews.any fun r => r.articleId == a.id) = true) :
    (upsert_article st item now).1.reviews = st.reviews := by
  unfold upsert_article
  rw [ha]
  simp only [insertOrIgnoreReview, hr, if_true]

/-- Witness for C10 at a concrete store. -/
theorem upsert_existing_preserves_reviews_w :
    (upsert_article exSt exItem "T3").1.reviews = exSt.reviews :=
  upsert_existing_preserves_reviews exSt exItem "T3" exArticle
    (by decide) (by decide)

/-! ## C2: the persisted schema

The specification requires five tables, and the repository's own
`tests/test_db_schema.py` inserts into `article_links` right after
`ensure_db_schema`, while `web_review.delete_item` inserts into
`ignored_urls` and `report.build_related_map` selects from `article_links`.
But the `executescript` DDL of `ensure_db_schema` contains only three
`CREATE TABLE IF NOT EXISTS` statements. -/

/-- C2 (code bug): after schema initialization the store does **not**
contain all five tables: exactly `articles`, `llm_results` and `reviews`
are created, and `article_links` and `ignored_urls` are absent, so every
statement that touches them fails with `no such table`. -/
theorem ensure_db_schema_creates_only_three_tables :
    (ensure_db_schema emptyDb).tables = ["articles", "llm_results", "reviews"] ∧
    "article_links" ∉ (ensure_db_schema emptyDb).tables ∧
    "ignored_urls" ∉ (ensure_db_schema emptyDb).tables ∧
    requireTable (ensure_db_schema emptyDb) "article_links" =
      Except.error "no such table: article_links" ∧
    requireTable (ensure_db_schema emptyDb) "ignored_urls" =
      Except.error "no such table: ignored_urls" := by
  refine ⟨rfl, by decide, by decide, rfl, rfl⟩

/-! ## C3: Delete

On a store whose schema was produced by `ensure_db_schema`, the
`INSERT OR IGNORE INTO ignored_urls` inside `delete_item` hits a missing
table, so the whole delete transaction fails and rolls back. -/

def exArticle2 : ArticleRow :=
  { id := 2, source := "EET-China", url := "https://example.com/b",
    title := "另一篇", dateRaw := some "2026-01-03",
    publishedDate := some "2026-01-03", author := none,
    content := some "正文二", contentFetchedAt := none,
    createdAt := "2026-01-03T00:00:00+00:00",
    updatedAt := "2026-01-03T00:00:00+00:00",
    lastSeenAt := "2026-01-03T00:00:00+00:00" }

def exReview2 : ReviewRow :=
  { articleId := 2, reviewStatus := REVIEW_STATUS_PENDING, userTitle := none,
    userCategory := none, userSummaryZh := none, userNotes := none,
    reviewedAt := none, updatedAt := "2026-01-03T00:00:00+00:00" }

def exLlm : LlmResultRow :=
  { articleId := 1, model := "qwen-plus", baseUrl := "https://example.com",
    category := "设备", summaryZh := "一句话。",
    rawJson := "\x7b\"category\": \"设备\", \"summary_zh\": \"一句话。\"\x7d",
    createdAt := "2026-01-02T00:00:00+00:00" }

def exLink : ArticleLinkRow :=
  { fromArticleId := 1, toArticleId := 2, relation := "related", note := none,
    createdAt := "2026-01-02T00:00:00+00:00" }

def exLink2 : ArticleLinkRow :=
  { fromArticleId := 2, toArticleId := 1, relation := "related", note := none,
    createdAt := "2026-01-02T00:00:00+00:00" }

/-- The same data on a store that really has all five tables the
specification describes (what the code would need for Delete to work). -/
def exStFull : DBState :=
  { exSt with
    tables := ["articles", "llm_results", "reviews", "article_links",
               "ignored_urls"]
    articles := [exArticle, exArticle2]
    reviews := [exReview, exReview2]
    llmResults := [exLlm]
    articleLinks := [exLink, exLink2] }

/-- C3 (code bug): on the store as initialized by `ensure_db_schema`,
deleting a stored article does not remove it and does not record its URL:
the statement `INSERT OR IGNORE INTO ignored_urls` raises
`no such table: ignored_urls` and the transaction rolls back.  On a store
that really had the five specified tables the same operation would behave
exactly as the claim states: the article row, its review, its LLM result
and every link referencing it are removed and its URL enters the
ignore-list. -/
theorem delete_item_fails_on_shipped_schema :
    delete_item exSt 1 "T4" = Except.error "no such table: ignored_urls" ∧
    delete_item exStFull 1 "T4" = Except.ok
      { exStFull with
        articles := [exArticle2]
        reviews := [exReview2]
        llmResults := []
        articleLinks := []
        ignoredUrls := [{ url := "https://example.com/a", createdAt := "T4" }] } := by
  exact ⟨rfl, rfl⟩

/-! ## C1: per-item failures in the classification batch

`cmd_llm` has no exception handling around `classify_and_summarize`: the
loop body runs inside one `with conn:` transaction, so a single article
whose classification still fails after the repair attempt aborts the whole
batch and rolls back everything, instead of being logged and skipped. -/

/-- Two classification candidates; both have content and no LLM result. -/
def c1St : DBState :=
  { ensure_db_schema emptyDb with
    nextArticleId := 3
    articles := [exArticle, exArticle2]
    reviews := [exReview, exReview2] }

/-- The collaborator answers garbage (no JSON object) for article 1, on
both the primary and the repair request, and a valid result for article 2. -/
def c1Oracle (a : ArticleRow) : LlmExchange :=
  if a.id == 1 then
    { primary := Except.ok "完全不是 JSON 的回答",
      repair := Except.ok "修复后也不是 JSON" }
  else
    { primary := Except.ok "\x7b\"category\":\"设备\",\"summary_zh\":\"一句话。\"\x7d",
      repair := Except.ok "" }

/-- Counterexample to C1: article 1 (the most recent candidate) fails
parsing even after the repair request, while article 2 on its own would
classify successfully — yet the batch run does not continue with article 2:
`cmd_llm` propagates the failure, aborting the batch (and rolling back the
transaction), so no article is processed. -/
theorem cmd_llm_abort_counterexample :
    classify_and_summarize (c1Oracle exArticle2) = Except.ok ("设备", "一句话。") ∧
    exArticle2 ∈ selectLlmRows c1St 20 ∧
    cmd_llm c1St c1Oracle 20 "qwen-plus" "https://example.com" "T5" =
      Except.error "No JSON object found" := by
  exact ⟨rfl, by decide, rfl⟩

/-- The classification loop aborts as soon as any article's classification
fails. -/
theorem cmdLlmLoop_error_of_mem
    (oracle : ArticleRow → LlmExchange) (model baseUrl now : String)
    (a : ArticleRow) (e : String)
    (hfail : classify_and_summarize (oracle a) = Except.error e) :
    ∀ (rows : List ArticleRow) (st : DBState) (processed : Nat), a ∈ rows →
      ∃ e', cmdLlmLoop oracle model baseUrl now rows st processed =
        Except.error e' := by
  intro rows
  induction rows with
  | nil => intro st processed h; cases h
  | cons b rest ih =>
    intro st processed h
    rcases List.mem_cons.mp h with hb | hrest
    · subst hb
      refine ⟨e, ?_⟩
      unfold cmdLlmLoop
      rw [hfail]
    · unfold cmdLlmLoop
      cases hc : classify_and_summarize (oracle b) with
      | error e2 => exact ⟨e2, rfl⟩
      | ok r =>
        obtain ⟨e', he'⟩ := ih _ (processed + 1) hrest
        exact ⟨e', by simpa using he'⟩

/-- C1 (amended): during a classification batch run, if any selected
article's classification fails — its LLM call failing after the bounded
retries, or its output still failing to parse/validate after the single
repair attempt — the raised error propagates out of the loop: the batch
aborts with that failure and the enclosing transaction rolls back, so the
remaining selected articles are **not** processed in that run. -/
theorem cmd_llm_aborts_on_item_failure
    (st : DBState) (oracle : ArticleRow → LlmExchange) (limit : Nat)
    (model baseUrl now : String) (a : ArticleRow) (e : String)
    (ha : a ∈ selectLlmRows st limit)
    (hfail : classify_and_summarize (oracle a) = Except.error e) :
    ∃ e', cmd_llm st oracle limit model baseUrl now = Except.error e' :=
  cmdLlmLoop_error_of_mem oracle model baseUrl now a e hfail _ st 0 ha

/-- Witness for the amended C1 at the concrete store. -/
theorem cmd_llm_aborts_on_item_failure_w :
    ∃ e', cmd_llm c1St c1Oracle 20 "qwen-plus" "https://example.com" "T5" =
      Except.error e' :=
  cmd_llm_aborts_on_item_failure c1St c1Oracle 20 "qwen-plus"
    "https://example.com" "T5" exArticle "No JSON object found"
    (by decide) rfl

/-! ## C5: accepted date shapes

`normalize_published_date` uses `re.search`, so it accepts every input
*containing* a date-like substring, a strict superset of the three exact
shapes the claim describes. -/

theorem dropWhile_eq_self_of (p : Char → Bool) (cs : List Char)
    (h : ∀ c ∈ cs, p c = false) : cs.dropWhile p = cs := by
  cases cs with
  | nil => rfl
  | cons c rest => simp [List.dropWhile_cons, h c (by simp)]

theorem pyStripList_eq_self (cs : List Char)
    (h : ∀ c ∈ cs, pySpace c = false) : pyStripList cs = cs := by
  unfold pyStripList dropTrailing
  rw [dropWhile_eq_self_of _ _ h,
    dropWhile_eq_self_of _ _ fun c hc => h c (List.mem_reverse.mp hc),
    List.reverse_reverse]

theorem isDigit_not_pySpace (c : Char) (h : c.isDigit = true) :
    pySpace c = false := by
  cases hps : pySpace c
  · rfl
  · exfalso
    unfold pySpace at hps
    simp only [Bool.or_eq_true, beq_iff_eq] at hps
    rcases hps with ((((((rfl | rfl) | rfl) | rfl) | rfl) | rfl) | rfl) | rfl <;>
      exact absurd h (by decide)

theorem normalize_sep_shape (s : String) (y1 y2 y3 y4 m1 m2 d1 d2 sep : Char)
    (hdata : s.data = [y1, y2, y3, y4, sep, m1, m2, sep, d1, d2])
    (hsep : sep = '-' ∨ sep = '/')
    (h1 : y1.isDigit = true) (h2 : y2.isDigit = true) (h3 : y3.isDigit = true)
    (h4 : y4.isDigit = true) (h5 : m1.isDigit = true) (h6 : m2.isDigit = true)
    (h7 : d1.isDigit = true) (h8 : d2.isDigit = true) :
    ∃ r, normalize_published_date (some s) = some r := by
  rw [← Option.isSome_iff_exists]
  have hne : (s == "") = false := by
    refine beq_eq_false_iff_ne.mpr ?_
    intro he
    rw [he] at hdata
    simp at hdata
  have hstrip : pyStripList s.data = s.data := by
    apply pyStripList_eq_self
    rw [hdata]
    intro c hc
    simp only [List.mem_cons, List.not_mem_nil, or_false] at hc
    rcases hsep with rfl | rfl <;>
      rcases hc with rfl | rfl | rfl | rfl | rfl | rfl | rfl | rfl | rfl | rfl <;>
      first
        | exact isDigit_not_pySpace _ (by assumption)
        | decide
  rw [hdata] at hstrip
  rcases hsep with rfl | rfl <;>
    simp [normalize_published_date, hne, hstrip, hdata, searchDate,
      matchDateFrom, matchMonthDay, matchDayPart, h1, h2, h3, h4, h5, h6, h7, h8]

theorem normalize_zh_shape (s : String) (y1 y2 y3 y4 m1 m2 d1 d2 : Char)
    (hdata : s.data = [y1, y2, y3, y4, '年', m1, m2, '月', d1, d2, '日'])
    (h1 : y1.isDigit = true) (h2 : y2.isDigit = true) (h3 : y3.isDigit = true)
    (h4 : y4.isDigit = true) (h5 : m1.isDigit = true) (h6 : m2.isDigit = true)
    (h7 : d1.isDigit = true) (h8 : d2.isDigit = true) :
    ∃ r, normalize_published_date (some s) = some r := by
  rw [← Option.isSome_iff_exists]
  have hne : (s == "") = false := by
    refine beq_eq_false_iff_ne.mpr ?_
    intro he
    rw [he] at hdata
    simp at hdata
  have hstrip : pyStripList s.data = s.data := by
    apply pyStripList_eq_self
    rw [hdata]
    intro c hc
    simp only [List.mem_cons, List.not_mem_nil, or_false] at hc
    rcases hc with rfl | rfl | rfl | rfl | rfl | rfl | rfl | rfl | rfl | rfl | rfl <;>
      first
        | exact isDigit_not_pySpace _ (by assumption)
        | decide
  rw [hdata] at hstrip
  simp [normalize_published_date, hne, hstrip, hdata, searchDate,
    matchDateFrom, matchMonthDay, matchDayPart, searchZh, matchZhFrom,
    matchZhMonthDay, matchZhDay, h1, h2, h3, h4, h5, h6, h7, h8]

/-- Counterexample to C5: the input `"x2026/01/02"` has none of the three
claimed shapes, yet `normalize_published_date` produces a normalized date
for it (the regex is applied with `re.search`, not a full match). -/
theorem normalize_published_date_shape_counterexample :
    isShapeDash "x2026/01/02" = false ∧ isShapeSlash "x2026/01/02" = false ∧
    isShapeZh "x2026/01/02" = false ∧
    normalize_published_date (some "x2026/01/02") = some "2026-01-02" := by
  exact ⟨rfl, rfl, rfl, rfl⟩

/-- C5 (amended): `normalize_published_date` produces a normalized date for
*every* input of one of the three shapes `YYYY-MM-DD`, `YYYY/MM/DD`,
`YYYY年MM月DD日` (the converse fails: inputs merely containing such a date
substring normalize too, per the counterexample); and the raw date string
is stored unchanged by the upsert in either case: every article row holding
the reference's URL after an upsert carries `date_raw = item.date`. -/
theorem normalize_published_date_accepts_shapes :
    (∀ s : String,
      (isShapeDash s || isShapeSlash s || isShapeZh s) = true →
      ∃ r, normalize_published_date (some s) = some r) ∧
    (∀ (st : DBState) (item : NewsItem) (now : String) a',
      a' ∈ (upsert_article st item now).1.articles → a'.url = item.url →
      a'.dateRaw = item.date) := by
  constructor
  · intro s h
    simp only [Bool.or_eq_true] at h
    rcases h with (hd | hs) | hz
    · unfold isShapeDash at hd
      split at hd
      · rename_i a b c d e f g h10 i j heq
        simp only [Bool.and_eq_true, beq_iff_eq] at hd
        obtain ⟨⟨⟨⟨⟨⟨⟨⟨⟨ha, hb⟩, hc⟩, hdd⟩, he⟩, hf⟩, hg⟩, hh⟩, hi⟩, hj⟩ := hd
        subst he
        subst hh
        exact normalize_sep_shape s a b c d f g i j '-' heq (Or.inl rfl)
          ha hb hc hdd hf hg hi hj
      · exact absurd hd (by simp)
    · unfold isShapeSlash at hs
      split at hs
      · rename_i a b c d e f g h10 i j heq
        simp only [Bool.and_eq_true, beq_iff_eq] at hs
        obtain ⟨⟨⟨⟨⟨⟨⟨⟨⟨ha, hb⟩, hc⟩, hdd⟩, he⟩, hf⟩, hg⟩, hh⟩, hi⟩, hj⟩ := hs
        subst he
        subst hh
        exact normalize_sep_shape s a b c d f g i j '/' heq (Or.inr rfl)
          ha hb hc hdd hf hg hi hj
      · exact absurd hs (by simp)
    · unfold isShapeZh at hz
      split at hz
      · rename_i a b c d e f g h10 i j k heq
        simp only [Bool.and_eq_true, beq_iff_eq] at hz
        obtain ⟨⟨⟨⟨⟨⟨⟨⟨⟨⟨ha, hb⟩, hc⟩, hdd⟩, he⟩, hf⟩, hg⟩, hh⟩, hi⟩, hj⟩, hk⟩ := hz
        subst he
        subst hh
        subst hk
        exact normalize_zh_shape s a b c d f g i j heq ha hb hc hdd hf hg hi hj
      · exact absurd hz (by simp)
  · intro st item now a' hmem hurl
    unfold upsert_article at hmem
    cases hfind : st.articles.find? fun x => x.url == item.url with
    | some a =>
      rw [hfind] at hmem
      simp only [insertOrIgnoreReview_articles] at hmem
      obtain ⟨x, hx, hfx⟩ := List.mem_map.mp hmem
      by_cases hbx : (x.url == item.url) = true
      · rw [if_pos hbx] at hfx
        rw [← hfx]
      · rw [if_neg (by simp [hbx])] at hfx
        subst hfx
        exact absurd (beq_iff_eq.mpr hurl) (by simp [hbx])
    | none =>
      rw [hfind] at hmem
      simp only [insertOrIgnoreReview_articles] at hmem
      rcases List.mem_append.mp hmem with hold | hnew
      · have := List.find?_eq_none.mp hfind a' hold
        exact absurd (beq_iff_eq.mpr hurl) (by simpa using this)
      · simp only [List.mem_singleton] at hnew
        rw [hnew]

/-- Witness for the amended C5: the three canonical concrete shapes each
normalize, and the upsert of `exItem` stores its raw date string. -/
theorem normalize_published_date_accepts_shapes_w :
    (∃ r, normalize_published_date (some "2026-01-02") = some r) ∧
    (∃ r, normalize_published_date (some "2026/01/02") = some r) ∧
    (∃ r, normalize_published_date (some "2026年01月02日") = some r) ∧
    ((upsert_article exSt exItem "T3").1.articles.getLast
        (by decide)).dateRaw = exItem.date := by
  refine ⟨?_, ?_, ?_, ?_⟩
  · exact normalize_published_date_accepts_shapes.1 "2026-01-02" (by decide)
  · exact normalize_published_date_accepts_shapes.1 "2026/01/02" (by decide)
  · exact normalize_published_date_accepts_shapes.1 "2026年01月02日" (by decide)
  · exact normalize_published_date_accepts_shapes.2 exSt exItem "T3" _
      (List.getLast_mem _) (by decide)

/-! ## C8: summary truncation at the third sentence terminator -/

/-- Number of sentence terminators in a character list. -/
def countTerm (cs : List Char) : Nat :=
  cs.countP fun c => decide (c ∈ terminators)

theorem getLast?_cons_ne {α : Type} (c : α) (q : List α) (h : q ≠ []) :
    (c :: q).getLast? = q.getLast? := by
  cases q with
  | nil => exact absurd rfl h
  | cons d t => simp [List.getLast?_cons_cons]

theorem takeToThird_none (cs : List Char) :
    ∀ count, count ≤ 2 → takeToThird cs count = none →
      countTerm cs + count < 3 := by
  induction cs with
  | nil => intro count hc _; simp [countTerm]; omega
  | cons c rest ih =>
    intro count hcount h
    unfold takeToThird at h
    by_cases hc : c ∈ terminators
    · rw [if_pos hc] at h
      by_cases h3 : count + 1 ≥ 3
      · rw [if_pos h3] at h; cases h
      · rw [if_neg h3] at h
        simp only [Option.map_eq_none'] at h
        have := ih (count + 1) (by omega) h
        simp [countTerm, hc] at this ⊢
        omega
    · rw [if_neg hc] at h
      simp only [Option.map_eq_none'] at h
      have := ih count hcount h
      simp [countTerm, hc] at this ⊢
      omega

/-- `takeToThird` yields a prefix of the input containing exactly three
terminators, the last character being the third one. -/
theorem takeToThird_spec (cs : List Char) :
    ∀ count p, count ≤ 2 → takeToThird cs count = some p →
      (∃ rest, p ++ rest = cs) ∧ countTerm p + count = 3 ∧
      ∃ c ∈ terminators, p.getLast? = some c := by
  induction cs with
  | nil => intro count p _ h; cases h
  | cons c rest ih =>
    intro count p hcount h
    unfold takeToThird at h
    by_cases hc : c ∈ terminators
    · rw [if_pos hc] at h
      by_cases h3 : count + 1 ≥ 3
      · rw [if_pos h3] at h
        cases h
        refine ⟨⟨rest, rfl⟩, ?_, c, hc, rfl⟩
        simp [countTerm, hc]
        omega
      · rw [if_neg h3] at h
        simp only [Option.map_eq_some'] at h
        obtain ⟨q, hq, rfl⟩ := h
        obtain ⟨⟨r2, hr2⟩, hcnt, d, hd, hlast⟩ := ih (count + 1) q (by omega) hq
        have hqne : q ≠ [] := by
          intro he; subst he; cases hlast
        refine ⟨⟨r2, by rw [List.cons_append, hr2]⟩, ?_, d, hd, ?_⟩
        · simp [countTerm, hc] at hcnt ⊢; omega
        · rwa [getLast?_cons_ne c q hqne]
    · rw [if_neg hc] at h
      simp only [Option.map_eq_some'] at h
      obtain ⟨q, hq, rfl⟩ := h
      obtain ⟨⟨r2, hr2⟩, hcnt, d, hd, hlast⟩ := ih count q hcount hq
      have hqne : q ≠ [] := by
        intro he; subst he; cases hlast
      refine ⟨⟨r2, by rw [List.cons_append, hr2]⟩, ?_, d, hd, ?_⟩
      · simp [countTerm, hc] at hcnt ⊢; omega
      · rwa [getLast?_cons_ne c q hqne]

theorem splitWsAux_tokens (cs : List Char) :
    ∀ acc, (∀ c ∈ acc, pySpace c = false) →
      ∀ t ∈ splitWsAux cs acc, t ≠ [] ∧ ∀ c ∈ t, pySpace c = false := by
  induction cs with
  | nil =>
    intro acc hacc t ht
    unfold splitWsAux at ht
    by_cases he : acc.isEmpty
    · rw [if_pos he] at ht; cases ht
    · rw [if_neg he] at ht
      simp only [List.mem_singleton] at ht
      subst ht
      constructor
      · simp only [List.isEmpty_iff] at he
        simpa using he
      · intro c hc
        exact hacc c (List.mem_reverse.mp hc)
  | cons c rest ih =>
    intro acc hacc t ht
    unfold splitWsAux at ht
    by_cases hsp : pySpace c
    · rw [if_pos hsp] at ht
      by_cases he : acc.isEmpty
      · rw [if_pos he] at ht
        exact ih [] (by simp) t ht
      · rw [if_neg he] at ht
        rcases List.mem_cons.mp ht with rfl | ht2
        · constructor
          · simp only [List.isEmpty_iff] at he
            simpa using he
          · intro d hd
            exact hacc d (List.mem_reverse.mp hd)
        · exact ih [] (by simp) t ht2
    · rw [if_neg hsp] at ht
      refine ih (c :: acc) ?_ t ht
      intro d hd
      rcases List.mem_cons.mp hd with rfl | hd2
      · simpa using hsp
      · exact hacc d hd2

theorem joinSpace_head_nonspace (ts : List (List Char))
    (h : ∀ t ∈ ts, t ≠ [] ∧ ∀ c ∈ t, pySpace c = false) :
    ∀ c, (joinSpace ts).head? = some c → pySpace c = false := by
  induction ts with
  | nil => intro c hc; cases hc
  | cons t rest ih =>
    intro c hc
    obtain ⟨hne, hns⟩ := h t (by simp)
    cases rest with
    | nil =>
      simp only [joinSpace] at hc
      exact hns c (List.mem_of_mem_head? hc)
    | cons t2 rest2 =>
      simp only [joinSpace] at hc
      cases t with
      | nil => exact absurd rfl hne
      | cons d t' =>
        simp only [List.cons_append, List.head?_cons, Option.some_inj] at hc
        exact hc ▸ hns d (by simp)

/-- The first character of a `_normalize_whitespace` result is never
whitespace. -/
theorem normalize_whitespace_head (s : String) :
    ∀ c, (normalize_whitespace s).data.head? = some c → pySpace c = false := by
  intro c hc
  unfold normalize_whitespace at hc
  refine joinSpace_head_nonspace _ ?_ c hc
  exact splitWsAux_tokens _ [] (by simp)

theorem terminator_not_pySpace (c : Char) (h : c ∈ terminators) :
    pySpace c = false := by
  rcases (by simpa [terminators] using h : c = '。' ∨ c = '！' ∨ c = '？') with
    rfl | rfl | rfl <;> decide

theorem dropWhile_eq_self_of_head {p : Char → Bool} {l : List Char}
    (h : ∀ c, l.head? = some c → p c = false) : l.dropWhile p = l := by
  cases l with
  | nil => rfl
  | cons c rest => simp [List.dropWhile_cons, h c rfl]

theorem pyStripList_eq_self_of_ends (p : List Char)
    (h1 : ∀ c, p.head? = some c → pySpace c = false)
    (h2 : ∀ c, p.getLast? = some c → pySpace c = false) :
    pyStripList p = p := by
  unfold pyStripList dropTrailing
  rw [dropWhile_eq_self_of_head h1]
  rw [dropWhile_eq_self_of_head fun c hc => h2 c (by rwa [← List.head?_reverse])]
  exact List.reverse_reverse p

/-- C8: For every validated LLM result whose whitespace-normalized summary
contains three or more sentence terminators from the fixed CJK set, the
validated summary is the prefix of the normalized summary ending exactly at
the third terminator: it is a prefix, it contains exactly three
terminators, and its last character is a terminator; in particular
`"第一句。第二句。第三句。第四句。"` is truncated to
`"第一句。第二句。第三句。"`. -/
theorem normalize_and_validate_truncates_at_third_terminator
    (obj : List (String × String)) (category summary : String)
    (h : normalize_and_validate_llm_result obj = Except.ok (category, summary))
    (h3 : 3 ≤ countTerm
      (normalize_whitespace (pyStrip (dictGetD obj "summary_zh" ""))).data) :
    ((∃ rest, summary.data ++ rest =
      (normalize_whitespace (pyStrip (dictGetD obj "summary_zh" ""))).data) ∧
    countTerm summary.data = 3 ∧
    (∃ c ∈ terminators, summary.data.getLast? = some c)) ∧
    normalize_and_validate_llm_result
      [("category", "设计"), ("summary_zh", "第一句。第二句。第三句。第四句。")] =
      Except.ok ("设计", "第一句。第二句。第三句。") := by
  refine ⟨?_, rfl⟩
  unfold normalize_and_validate_llm_result at h
  dsimp only at h
  split at h
  · cases h
  · split at h
    · cases h
    · simp only [Except.ok.injEq, Prod.mk.injEq] at h
      obtain ⟨hcat, hsum⟩ := h
      set s0 := normalize_whitespace (pyStrip (dictGetD obj "summary_zh" ""))
        with hs0
      cases htk : takeToThird s0.data 0 with
      | none =>
        have := takeToThird_none s0.data 0 (by omega) htk
        omega
      | some p =>
        obtain ⟨⟨rest, hrest⟩, hcnt, c, hcterm, hlast⟩ :=
          takeToThird_spec s0.data 0 p (by omega) htk
        have hpne : p ≠ [] := by
          intro he; subst he; cases hlast
        have hstrip : pyStripList p = p := by
          apply pyStripList_eq_self_of_ends
          · intro d hd
            apply normalize_whitespace_head (pyStrip (dictGetD obj "summary_zh" ""))
            rw [← hrest] at *
            cases p with
            | nil => exact absurd rfl hpne
            | cons e t =>
              simp only [List.head?_cons, Option.some_inj] at hd
              subst hd
              simp
          · intro d hd
            rw [hlast] at hd
            cases hd
            exact terminator_not_pySpace c hcterm
        have hsummary : summary = ⟨p⟩ := by
          rw [← hsum]
          unfold truncateSummary
          rw [htk]
          dsimp only
          rw [hstrip]
        subst hsummary
        exact ⟨⟨rest, hrest⟩, by simpa using hcnt, c, hcterm, hlast⟩

/-- Witness for C8 at the specification's concrete example. -/
theorem normalize_and_validate_truncates_at_third_terminator_w :
    ((∃ rest, ("第一句。第二句。第三句。" : String).data ++ rest =
      (normalize_whitespace (pyStrip (dictGetD
        [("category", "设计"), ("summary_zh", "第一句。第二句。第三句。第四句。")]
        "summary_zh" ""))).data) ∧
    countTerm ("第一句。第二句。第三句。" : String).data = 3 ∧
    (∃ c ∈ terminators,
      ("第一句。第二句。第三句。" : String).data.getLast? = some c)) ∧
    normalize_and_validate_llm_result
      [("category", "设计"), ("summary_zh", "第一句。第二句。第三句。第四句。")] =
      Except.ok ("设计", "第一句。第二句。第三句。") :=
  normalize_and_validate_truncates_at_third_terminator
    [("category", "设计"), ("summary_zh", "第一句。第二句。第三句。第四句。")]
    "设计" "第一句。第二句。第三句。" rfl (by decide)

/-! ## C4: the three-tier effective-value rule across consumers

The review-page listing resolves title/category/summary with Python `or`
(the override applies when non-None and non-empty).  The two SQL consumers
use `COALESCE` (non-NULL precedence) for category/summary — but both select
the *stored* article title, ignoring the `user_title` override, and the
related-article attachment carries no category at all. -/

/-- Modelled from the spec: one tier of the effective-value rule — the
value if present (a non-empty value was supplied), else the fallback. -/
def effective_tier (v : Option String) (fallback : String) : String :=
  match v with
  | some s => if s ≠ "" then s else fallback
  | none => fallback

/-- Modelled from the spec: "the 'effective' category/summary/title for any
downstream use is the user override if present, else the LLMResult value,
else a category fallback of 'other' / empty summary" (stored title for the
title field). -/
def effective_value (override modelValue : Option String)
    (fallback : String) : String :=
  effective_tier override (effective_tier modelValue fallback)

theorem pyOrStr_eq_effective_tier (a : Option String) (b : String) :
    pyOrStr a b = effective_tier a b := by
  cases a with
  | none => rfl
  | some s =>
    by_cases h : s = ""
    · simp [pyOrStr, effective_tier, h]
    · simp [pyOrStr, effective_tier, h]

theorem fetchItemsLoop_mem (db : DBState) :
    ∀ rows items, fetchItemsLoop db rows = Except.ok items →
      ∀ it ∈ items, ∃ x ∈ rows, fetchItemRow db x = Except.ok it := by
  intro rows
  induction rows with
  | nil =>
    intro items h it hit
    unfold fetchItemsLoop at h
    cases h
    cases hit
  | cons x rest ih =>
    intro items h it hit
    unfold fetchItemsLoop at h
    cases hx : fetchItemRow db x with
    | error e => rw [hx] at h; cases h
    | ok it0 =>
      rw [hx] at h
      cases hrest : fetchItemsLoop db rest with
      | error e => rw [hrest] at h; cases h
      | ok items0 =>
        rw [hrest] at h
        simp only [Except.map, Except.ok.injEq] at h
        subst h
        rcases List.mem_cons.mp hit with rfl | hit2
        · exact ⟨x, by simp, hx⟩
        · obtain ⟨y, hy, hys⟩ := ih items0 hrest it hit2
          exact ⟨y, by simp [hy], hys⟩

/-- C4 (amended): every item of the review-page listing resolves its
effective title, category and summary by the spec's three-tier rule
(`effective_value`, override-if-non-empty precedence); every report record
carries the three-tier category and the `COALESCE`d summary but the
*stored* article title, not the override; and every related-article
attachment carries the stored (whitespace-normalized) title and the
`COALESCE`d summary, with no category field at all. -/
theorem c4_amended (db : DBState) (year : Nat) :
    (∀ items, fetch_items db year = Except.ok items →
      ∀ it ∈ items, ∃ a ∈ db.articles, ∃ r ∈ db.reviews,
        r.articleId = a.id ∧ it.id = a.id ∧
        (let l := db.llmResults.find? fun q => q.articleId == a.id
         it.final_title = effective_value r.userTitle none a.title ∧
         it.final_category =
           effective_value r.userCategory (l.map (·.category)) "其他" ∧
         it.final_summary =
           effective_value r.userSummaryZh (l.map (·.summaryZh)) "")) ∧
    (∀ rec ∈ read_db_records db, ∃ a ∈ db.articles, ∃ r ∈ db.reviews,
      r.articleId = a.id ∧ rec.article_id = some (Int.ofNat a.id) ∧
      rec.title = some a.title ∧
      (let l := db.llmResults.find? fun q => q.articleId == a.id
       rec.category =
         some ((sqlCoalesce r.userCategory (l.map (·.category))).getD "其他") ∧
       rec.summary_zh = sqlCoalesce r.userSummaryZh (l.map (·.summaryZh)))) ∧
    (∀ x ∈ build_related_map db year, ∃ aTo ∈ db.articles,
      x.2.article_id = aTo.id ∧ x.2.title = normalize_whitespace aTo.title ∧
      (let r := db.reviews.find? fun q => q.articleId == aTo.id
       let l := db.llmResults.find? fun q => q.articleId == aTo.id
       x.2.summary =
         match sqlCoalesce (r.bind (·.userSummaryZh)) (l.map (·.summaryZh)) with
         | some s => normalize_whitespace s
         | none => "")) := by
  refine ⟨?_, ?_, ?_⟩
  · intro items h it hit
    obtain ⟨x, hx, hrow⟩ := fetchItemsLoop_mem db _ items h it hit
    rw [List.Perm.mem_iff (List.perm_insertionSort fetchOrder _)] at hx
    obtain ⟨r, hr, hg⟩ := List.mem_filterMap.mp hx
    cases hfind : db.articles.find? fun a => a.id == r.articleId with
    | none => rw [hfind] at hg; cases hg
    | some a =>
      rw [hfind] at hg
      dsimp only at hg
      cases hpub : a.publishedDate with
      | none => rw [hpub] at hg; cases hg
      | some pd =>
        rw [hpub] at hg
        dsimp only at hg
        split at hg
        · simp only [Option.some_inj] at hg
          subst hg
          have hid : a.id = r.articleId := by
            have := @List.find?_some _ (fun q : ArticleRow => q.id == r.articleId)
              a db.articles hfind
            simpa using this
          refine ⟨a, List.mem_of_find?_eq_some hfind, r, hr, hid.symm, ?_⟩
          unfold fetchItemRow at hrow
          dsimp only at hrow
          split at hrow
          · cases hrow
          · simp only [Except.ok.injEq] at hrow
            subst hrow
            refine ⟨rfl, ?_, ?_, ?_⟩ <;>
              simp [effective_value, pyOrStr_eq_effective_tier, effective_tier]
        · cases hg
  · intro rec hrec
    obtain ⟨r, hr, hg⟩ := List.mem_filterMap.mp hrec
    cases hfind : db.articles.find? fun a => a.id == r.articleId with
    | none => rw [hfind] at hg; cases hg
    | some a =>
      rw [hfind] at hg
      dsimp only at hg
      split at hg
      · simp only [Option.some_inj] at hg
        subst hg
        have hid : a.id = r.articleId := by
          have := @List.find?_some _ (fun q : ArticleRow => q.id == r.articleId)
            a db.articles hfind
          simpa using this
        exact ⟨a, List.mem_of_find?_eq_some hfind, r, hr, hid.symm, rfl, rfl,
          rfl, rfl⟩
      · cases hg
  · intro x hx
    obtain ⟨y, hy, hg⟩ := List.mem_filterMap.mp hx
    rw [List.Perm.mem_iff (List.perm_insertionSort relOrder _)] at hy
    obtain ⟨al, hal, hga⟩ := List.mem_filterMap.mp hy
    cases hfrom : db.articles.find? fun a => a.id == al.fromArticleId with
    | none => rw [hfrom] at hga; cases hga
    | some aFrom =>
      cases hto : db.articles.find? fun a => a.id == al.toArticleId with
      | none => rw [hfrom, hto] at hga; cases hga
      | some aTo =>
        rw [hfrom, hto] at hga
        dsimp only at hga
        cases hpub : aFrom.publishedDate with
        | none => rw [hpub] at hga; cases hga
        | some pd =>
          rw [hpub] at hga
          dsimp only at hga
          split at hga
          · simp only [Option.some_inj] at hga
            subst hga
            dsimp only at hg
            split at hg
            · cases hg
            · simp only [Option.some_inj] at hg
              subst hg
              exact ⟨aTo, List.mem_of_find?_eq_some hto, rfl, rfl, rfl⟩
          · cases hga


/-- A reviewed article whose reviewer overrode the title and summary. -/
def c4Review : ReviewRow :=
  { articleId := 1, reviewStatus := REVIEW_STATUS_REVIEWED,
    userTitle := some "改标题", userCategory := none,
    userSummaryZh := some "摘要。", userNotes := none,
    reviewedAt := some "2026-01-05T00:00:00+00:00",
    updatedAt := "2026-01-05T00:00:00+00:00" }

def c4Db : DBState :=
  { ensure_db_schema emptyDb with
    nextArticleId := 2
    articles := [exArticle]
    reviews := [c4Review] }

/-- Counterexample to C4: the reviewer overrode the title to `改标题`, so
the three-tier rule yields `改标题`; yet report record selection
(`read_db_records`) returns the stored title `原标题` — the consumers do
not all resolve the title by the same three-tier rule. -/
theorem read_db_records_ignores_title_override :
    (read_db_records c4Db).map (fun rec => rec.title) = [some "原标题"] ∧
    effective_value (some "改标题") none "原标题" = "改标题" ∧
    ("原标题" : String) ≠ "改标题" := by
  exact ⟨rfl, rfl, by decide⟩

/-- Witness for the amended C4 at a concrete store. -/
theorem c4_amended_w :
    ∃ a ∈ c4Db.articles, ∃ r ∈ c4Db.reviews,
      r.articleId = a.id ∧
      (some 1 : Option Int) = some (Int.ofNat a.id) ∧
      (some "原标题" : Option String) = some a.title ∧
      (let l := c4Db.llmResults.find? fun q => q.articleId == a.id
       (some "其他" : Option String) =
         some ((sqlCoalesce r.userCategory (l.map (·.category))).getD "其他") ∧
       (some "摘要。" : Option String) =
         sqlCoalesce r.userSummaryZh (l.map (·.summaryZh))) :=
  (c4_amended c4Db 2026).2.1
    { article_id := some 1, date := some "2026-01-02",
      title := some "原标题", category := some "其他",
      summary_zh := some "摘要。", url := some "https://example.com/a" }
    (by decide)


/-! ## C7: the weekly report builder's filters and ordering -/

theorem pySpace_nbspMap (c : Char) :
    pySpace (if c == '\xa0' then ' ' else c) = pySpace c := by
  by_cases h : c = '\xa0'
  · simp [h, pySpace]
  · simp [h]

theorem pyStripList_eq_nil_iff (cs : List Char) :
    pyStripList cs = [] ↔ ∀ c ∈ cs, pySpace c = true := by
  constructor
  · intro h c hc
    unfold pyStripList dropTrailing at h
    rw [List.reverse_eq_nil_iff, List.dropWhile_eq_nil_iff] at h
    have hall : ∀ c ∈ cs.dropWhile pySpace, pySpace c = true := by
      intro d hd
      exact h d (List.mem_reverse.mpr hd)
    rcases (List.mem_append.mp
      ((List.takeWhile_append_dropWhile (p := pySpace) (l := cs)) ▸ hc)) with
      ht | hd
    · exact List.mem_takeWhile_imp ht
    · exact hall c hd
  · intro h
    unfold pyStripList dropTrailing
    have h1 : cs.dropWhile pySpace = [] := by
      rw [List.dropWhile_eq_nil_iff]
      exact fun c hc => h c hc
    rw [h1]
    rfl

theorem splitWsAux_ne_nil (cs : List Char) :
    ∀ acc, acc ≠ [] → splitWsAux cs acc ≠ [] := by
  induction cs with
  | nil =>
    intro acc hne
    unfold splitWsAux
    rw [if_neg (by simpa [List.isEmpty_iff] using hne)]
    simp
  | cons c rest ih =>
    intro acc hne
    unfold splitWsAux
    by_cases hsp : pySpace c
    · rw [if_pos hsp, if_neg (by simpa [List.isEmpty_iff] using hne)]
      simp
    · rw [if_neg hsp]
      exact ih (c :: acc) (by simp)

theorem pySplitWs_eq_nil_iff (cs : List Char) :
    pySplitWs cs = [] ↔ ∀ c ∈ cs, pySpace c = true := by
  unfold pySplitWs
  induction cs with
  | nil => simp [splitWsAux]
  | cons c rest ih =>
    unfold splitWsAux
    by_cases hsp : pySpace c
    · simp only [if_pos hsp, List.isEmpty_nil, if_true]
      rw [ih]
      constructor
      · intro h d hd
        rcases List.mem_cons.mp hd with rfl | hd2
        · exact hsp
        · exact h d hd2
      · intro h d hd
        exact h d (by simp [hd])
    · rw [if_neg hsp]
      constructor
      · intro h
        exact absurd h (splitWsAux_ne_nil rest [c] (by simp))
      · intro h
        exact absurd (h c (by simp)) (by simp [hsp])

theorem mkString_eq_empty_iff (l : List Char) : (⟨l⟩ : String) = "" ↔ l = [] := by
  constructor
  · intro h
    exact congrArg String.data h
  · intro h
    rw [h]

theorem normalize_whitespace_eq_empty_iff (s : String) :
    normalize_whitespace s = "" ↔ pyStrip s = "" := by
  unfold normalize_whitespace pyStrip
  rw [mkString_eq_empty_iff, mkString_eq_empty_iff]
  rw [pyStripList_eq_nil_iff]
  constructor
  · intro h c hc
    by_contra hns
    -- the first token of the split is nonempty, so joinSpace is nonempty
    have hne : pySplitWs (s.data.map fun c => if c == '\xa0' then ' ' else c) ≠ [] := by
      intro hnil
      rw [pySplitWs_eq_nil_iff] at hnil
      have := hnil (if c == '\xa0' then ' ' else c) (List.mem_map_of_mem _ hc)
      rw [pySpace_nbspMap] at this
      exact hns (by simpa using this)
    cases hts : pySplitWs (s.data.map fun c => if c == '\xa0' then ' ' else c) with
    | nil => exact hne hts
    | cons t rest =>
      obtain ⟨htne, _⟩ := splitWsAux_tokens
        (s.data.map fun c => if c == '\xa0' then ' ' else c) [] (by simp) t
        (by unfold pySplitWs at hts; rw [hts]; simp)
      rw [hts] at h
      cases rest with
      | nil =>
        simp only [joinSpace] at h
        exact htne h
      | cons t2 r2 =>
        simp only [joinSpace] at h
        rcases List.append_eq_nil.mp h with ⟨_, h2⟩
        cases h2
  · intro h
    have : pySplitWs (s.data.map fun c => if c == '\xa0' then ' ' else c) = [] := by
      rw [pySplitWs_eq_nil_iff]
      intro c hc
      obtain ⟨d, hd, rfl⟩ := List.mem_map.mp hc
      rw [pySpace_nbspMap]
      exact h d hd
    rw [this]
    rfl

end SemiWeekly
namespace SemiWeekly

instance : IsTotal Nat weekDescOrder := ⟨fun a b => (le_total b a).imp id id⟩

instance : IsTrans Nat weekDescOrder :=
  ⟨fun _ _ _ hab hbc => le_trans hbc hab⟩

theorem build_weekly_count (records : List ReportInput) (year : Nat) :
    ∀ acc : Grouped × Nat,
      (records.foldl
        (fun acc r =>
          match normalize_report_record r year with
          | none => acc
          | some n => (addToGrouped acc.1 n.category n.week n, acc.2 + 1))
        acc).2 =
      acc.2 +
        (records.filter fun r => (normalize_report_record r year).isSome).length := by
  induction records with
  | nil => intro acc; simp
  | cons r rest ih =>
    intro acc
    simp only [List.foldl_cons, List.filter_cons]
    cases hn : normalize_report_record r year with
    | none => simp only [hn, Option.isSome_none]; rw [ih]; simp
    | some n =>
      simp only [hn, Option.isSome_some, if_true]
      rw [ih]
      simp
      omega


/-- C7: The report builder for target year `Y` keeps exactly the records
whose date parses and falls in year `Y` and whose summary is non-empty
after whitespace normalization — the kept count equals the number of such
records, and a record survives normalization iff those conditions hold —
maps any category outside the fixed 8-value enumeration to `其他` (the
normalized category is always in the enumeration), and renders the weeks
within each category in descending numeric order. -/
theorem build_weekly_report_index_spec (records : List ReportInput) (year : Nat) :
    (build_weekly_report_index records year).2 =
      (records.filter fun r => (normalize_report_record r year).isSome).length ∧
    (∀ r : ReportInput, (normalize_report_record r year).isSome = true ↔
      ((∃ d, parse_iso_date r.date = some d ∧ d.year = year) ∧
       (∃ s, r.summary_zh = some s ∧ normalize_whitespace s ≠ ""))) ∧
    (∀ r n, normalize_report_record r year = some n →
      n.category ∈ CATEGORY_OPTIONS ∧
      (∀ c, r.category = some c → pyStrip c ∉ CATEGORY_OPTIONS →
        n.category = "其他") ∧
      (r.category = none → n.category = "其他")) ∧
    (∀ e ∈ render_weekly_report_html (build_weekly_report_index records year).1,
      List.Sorted weekDescOrder (e.2.map Prod.fst)) := by
  refine ⟨?_, ?_, ?_, ?_⟩
  · unfold build_weekly_report_index
    rw [build_weekly_count]
    simp
  · intro r
    unfold normalize_report_record
    cases hp : parse_iso_date r.date with
    | none =>
      simp only [Option.isSome_none]
      constructor
      · intro h; cases h
      · rintro ⟨⟨d, hd, _⟩, _⟩
        exact absurd hd (by simp)
    | some d =>
      dsimp only
      by_cases hy : (d.year != year) = true
      · rw [if_pos hy]
        simp only [Option.isSome_none]
        constructor
        · intro h; cases h
        · rintro ⟨⟨d2, hd2, hy2⟩, _⟩
          rw [Option.some_inj] at hd2
          subst hd2
          exact absurd hy2 (by simpa using hy)
      · rw [if_neg hy]
        cases hs : r.summary_zh with
        | none =>
          simp only [Option.isSome_none]
          constructor
          · intro h; cases h
          · rintro ⟨_, s, hs2, _⟩
            exact absurd hs2 (by simp)
        | some sraw =>
          dsimp only
          by_cases he : (pyStrip sraw == "") = true
          · rw [if_pos he]
            simp only [Option.isSome_none]
            constructor
            · intro h; cases h
            · rintro ⟨_, s, hs2, hne⟩
              rw [Option.some_inj] at hs2
              subst hs2
              exact absurd ((normalize_whitespace_eq_empty_iff _).mpr
                (by simpa using he)) hne
          · rw [if_neg he]
            simp only [Option.isSome_some, true_iff]
            refine ⟨⟨d, rfl, by simpa using hy⟩, sraw, rfl, ?_⟩
            intro hcon
            exact he (by simpa using (normalize_whitespace_eq_empty_iff sraw).mp hcon)
  · intro r n hn
    unfold normalize_report_record at hn
    cases hp : parse_iso_date r.date with
    | none => rw [hp] at hn; cases hn
    | some d =>
      rw [hp] at hn
      dsimp only at hn
      split at hn
      · cases hn
      · cases hs : r.summary_zh with
        | none => rw [hs] at hn; cases hn
        | some sraw =>
          rw [hs] at hn
          dsimp only at hn
          split at hn
          · cases hn
          · simp only [Option.some_inj] at hn
            subst hn
            dsimp only
            refine ⟨?_, ?_, ?_⟩
            · split
              · assumption
              · simp [CATEGORY_OPTIONS]
            · intro c hc hnotin
              rw [hc]
              dsimp only
              rw [if_neg hnotin]
            · intro hc
              rw [hc]
              dsimp only
              rw [if_neg (by simp [CATEGORY_OPTIONS])]
  · intro e he
    unfold render_weekly_report_html at he
    obtain ⟨cat, _, hf⟩ := List.mem_filterMap.mp he
    cases hfind : (build_weekly_report_index records year).1.find?
        fun x => x.1 == cat with
    | none => rw [hfind] at hf; cases hf
    | some entry =>
      rw [hfind] at hf
      dsimp only at hf
      split at hf
      · cases hf
      · simp only [Option.some_inj] at hf
        subst hf
        dsimp only
        rw [List.map_map]
        have : (Prod.fst ∘ fun w =>
            (w, ((entry.2.find? fun q => q.1 == w).map Prod.snd |>.getD
              []).insertionSort dateDescOrder)) = id := by
          funext w
          rfl
        rw [this, List.map_id]
        exact List.sorted_insertionSort weekDescOrder _


/-- A record with an unrecognized category label. -/
def c7r4 : ReportInput :=
  { date := some "2026-01-03", category := some "未知分类",
    summary_zh := some "保留二。" }

/-- The record list of the repository's own report test: a prior-year
record, a kept record, a blank summary, an unknown category, a bad date. -/
def c7Records : List ReportInput :=
  [{ date := some "2025-12-31", category := some "设备",
     summary_zh := some "去年的摘要。", url := some "https://example.com/2025" },
   { date := some "2026-01-01", category := some "设备",
     summary_zh := some "保留一。", url := some "https://example.com/a" },
   { date := some "2026-01-02", category := some "设备",
     summary_zh := some "   " },
   c7r4,
   { date := some "not-a-date", category := some "设备",
     summary_zh := some "坏日期。" }]

/-- The normalization of `c7r4` (category coerced to `其他`). -/
def c7Norm4 : NormRecord :=
  { article_id := none, category := "其他", week := 1,
    date := ⟨2026, 1, 3⟩, summary := "保留二。", title := "", url := "" }

/-- Witness for C7 at the test's concrete records. -/
theorem build_weekly_report_index_spec_w :
    (build_weekly_report_index c7Records 2026).2 =
      (c7Records.filter fun r => (normalize_report_record r 2026).isSome).length ∧
    c7Norm4.category = "其他" :=
  ⟨(build_weekly_report_index_spec c7Records 2026).1,
   ((build_weekly_report_index_spec c7Records 2026).2.2.1 c7r4 c7Norm4
       (by rfl)).2.1 "未知分类" rfl (by decide)⟩


end SemiWeekly
